import Mathlib

/-!
Shallow embedding of the meal-ordering system's service layer
(`app/services_fixed.py` together with the SQLModel table and schema
definitions in `app/models.py`).

Modelling conventions:
* `Decimal` money values carry exactly two decimal places in the source
  (`Field(decimal_places=2)`), so they are embedded as integer numbers of
  cents; `Decimal` addition and `Decimal * int` multiplication are exact,
  and so are the corresponding `Int` operations.
* Python `int` columns are embedded as `Int`; the pydantic bounds
  (`ge=0` on stock, `ge=1` on quantities, `min_length=8` on passwords)
  become `Valid` predicates on the request schemas, checked by pydantic
  before a request reaches the service layer.
* `datetime` values are opaque to every service rule, so timestamps are
  embedded as `Nat` and each mutating operation receives the current
  clock value `now` (the embedding of `datetime.utcnow()`).
* Database rows live in Lean lists in insertion order; primary keys are
  `Nat` values handed out by per-table auto-increment counters starting
  at 1, as in SQLite.  `session.get(Model, pk)` becomes `List.find?` on
  the primary key and a `select(...).where(...)` becomes `List.filter`.
* The SHA-256 password hash is embedded as an abstract function
  parameter `hash : String → String`: the spec treats the hashing
  primitive as a pluggable deterministic one-way function, and no
  service rule depends on anything but determinism (plus freedom from
  collisions on the compared pair, stated as a hypothesis where needed).
* The email-format regex on `User.email` is input-format validation with
  no bearing on any service rule and is elided.
-/

namespace MealOrdering

/-- `UserRole` enum from `app/models.py`. -/
inductive UserRole where
  | regular
  | admin
deriving DecidableEq

/-- `OrderStatus` enum from `app/models.py`. -/
inductive OrderStatus where
  | pending
  | confirmed
  | preparing
  | ready
  | completed
  | cancelled
deriving DecidableEq

/-- `DeliveryType` enum from `app/models.py`. -/
inductive DeliveryType where
  | pickup
  | delivery
deriving DecidableEq

/-- `Department` table row (`app/models.py`). -/
structure Department where
  id : Nat
  name : String
  description : String
  is_active : Bool
  created_at : Nat
  updated_at : Nat
deriving DecidableEq

/-- `User` table row (`app/models.py`). -/
structure User where
  id : Nat
  name : String
  email : String
  password_hash : String
  phone : String
  role : UserRole
  department_id : Option Nat
  is_active : Bool
  created_at : Nat
  updated_at : Nat
deriving DecidableEq

/-- `Dish` table row (`app/models.py`); `price` in cents. -/
structure Dish where
  id : Nat
  name : String
  price : Int
  description : String
  image_url : Option String
  category : String
  stock_quantity : Int
  is_available : Bool
  created_at : Nat
  updated_at : Nat
deriving DecidableEq

/-- `Order` table row (`app/models.py`); `total_amount` in cents. -/
structure Order where
  id : Nat
  user_id : Nat
  order_date : Nat
  pickup_time : Nat
  delivery_type : DeliveryType
  status : OrderStatus
  total_amount : Int
  remarks : String
  created_at : Nat
  updated_at : Nat
deriving DecidableEq

/-- `OrderItem` table row (`app/models.py`); prices in cents. -/
structure OrderItem where
  id : Nat
  order_id : Nat
  dish_id : Nat
  quantity : Int
  unit_price : Int
  subtotal : Int
deriving DecidableEq

/-- `CartItem` table row (`app/models.py`). -/
structure CartItem where
  id : Nat
  user_id : Nat
  dish_id : Nat
  quantity : Int
  created_at : Nat
  updated_at : Nat
deriving DecidableEq

/-- `UserCreate` request schema (`app/models.py`). -/
structure UserCreate where
  name : String
  email : String
  password : String
  phone : String
  department_id : Option Nat
deriving DecidableEq

/-- Pydantic validation on `UserCreate`: `password` has `min_length=8`. -/
def UserCreate.Valid (u : UserCreate) : Prop :=
  8 ≤ u.password.length

/-- `UserLogin` request schema (`app/models.py`). -/
structure UserLogin where
  email : String
  password : String
deriving DecidableEq

/-- `DepartmentCreate` request schema (`app/models.py`). -/
structure DepartmentCreate where
  name : String
  description : String
deriving DecidableEq

/-- `DepartmentUpdate` request schema (`app/models.py`); a `none` field
was not supplied (`exclude_unset=True`). -/
structure DepartmentUpdate where
  name : Option String
  description : Option String
  is_active : Option Bool
deriving DecidableEq

/-- `DishCreate` request schema (`app/models.py`). -/
structure DishCreate where
  name : String
  price : Int
  description : String
  image_url : Option String
  category : String
  stock_quantity : Int
deriving DecidableEq

/-- Pydantic validation on `DishCreate`: `stock_quantity` has `ge=0`. -/
def DishCreate.Valid (d : DishCreate) : Prop :=
  0 ≤ d.stock_quantity

/-- `DishUpdate` request schema (`app/models.py`); a `none` field was
not supplied (`exclude_unset=True`). -/
structure DishUpdate where
  name : Option String
  price : Option Int
  description : Option String
  image_url : Option (Option String)
  category : Option String
  stock_quantity : Option Int
  is_available : Option Bool
deriving DecidableEq

/-- Pydantic validation on `DishUpdate`: a supplied `stock_quantity`
has `ge=0`. -/
def DishUpdate.Valid (d : DishUpdate) : Prop :=
  ∀ v, d.stock_quantity = some v → 0 ≤ v

/-- `OrderCreate` request schema (`app/models.py`). -/
structure OrderCreate where
  pickup_time : Nat
  delivery_type : DeliveryType
  remarks : Option String
deriving DecidableEq

/-- `CartItemCreate` request schema (`app/models.py`). -/
structure CartItemCreate where
  dish_id : Nat
  quantity : Int
deriving DecidableEq

/-- Pydantic validation on `CartItemCreate`: `quantity` has `ge=1`. -/
def CartItemCreate.Valid (c : CartItemCreate) : Prop :=
  1 ≤ c.quantity

/-- `CartItemUpdate` request schema (`app/models.py`). -/
structure CartItemUpdate where
  quantity : Int
deriving DecidableEq

/-- Pydantic validation on `CartItemUpdate`: `quantity` has `ge=1`. -/
def CartItemUpdate.Valid (c : CartItemUpdate) : Prop :=
  1 ≤ c.quantity

/-- The persistent database state: one list per table, in insertion
order, plus the auto-increment counter of each table's primary key. -/
structure DBState where
  departments : List Department
  users : List User
  dishes : List Dish
  orders : List Order
  order_items : List OrderItem
  cart_items : List CartItem
  next_department_id : Nat
  next_user_id : Nat
  next_dish_id : Nat
  next_order_id : Nat
  next_order_item_id : Nat
  next_cart_item_id : Nat
deriving DecidableEq

/-- The empty database produced by `create_tables` on a fresh file:
no rows, all auto-increment counters at 1. -/
def DBState.empty : DBState :=
  { departments := []
    users := []
    dishes := []
    orders := []
    order_items := []
    cart_items := []
    next_department_id := 1
    next_user_id := 1
    next_dish_id := 1
    next_order_id := 1
    next_order_item_id := 1
    next_cart_item_id := 1 }

section Services

/- The password-hashing primitive (`hashlib.sha256(...).hexdigest()` in
the source); per the spec it is a pluggable deterministic one-way
function, so it is a parameter of the whole development. -/
variable (hash_password : String → String)

/-- `AuthenticationService.register_user`: reject a duplicate email,
otherwise insert a new regular user whose stored credential is the hash
of the supplied password. -/
def register_user (now : Nat) (s : DBState) (user_data : UserCreate) :
    Option User × DBState :=
  match s.users.find? (fun u => u.email == user_data.email) with
  | some _ => (none, s)
  | none =>
    let user : User :=
      { id := s.next_user_id
        name := user_data.name
        email := user_data.email
        password_hash := hash_password user_data.password
        phone := user_data.phone
        role := UserRole.regular
        department_id := user_data.department_id
        is_active := true
        created_at := now
        updated_at := now }
    (some user, { s with users := s.users ++ [user], next_user_id := s.next_user_id + 1 })

/-- `AuthenticationService.authenticate_user`: look up the first user
with the given email and compare stored hash against the hash of the
supplied password. -/
def authenticate_user (s : DBState) (login_data : UserLogin) : Option User :=
  match s.users.find? (fun u => u.email == login_data.email) with
  | some user =>
    if user.password_hash == hash_password login_data.password then some user else none
  | none => none

/-- `AuthenticationService.get_user_by_id`. -/
def get_user_by_id (s : DBState) (user_id : Nat) : Option User :=
  s.users.find? (fun u => u.id == user_id)

/-- `DepartmentService.get_all_departments`: only active departments. -/
def get_all_departments (s : DBState) : List Department :=
  s.departments.filter (fun d => d.is_active)

/-- `DepartmentService.create_department`: reject a duplicate name,
otherwise insert. -/
def create_department (now : Nat) (s : DBState) (dept_data : DepartmentCreate) :
    Option Department × DBState :=
  match s.departments.find? (fun d => d.name == dept_data.name) with
  | some _ => (none, s)
  | none =>
    let department : Department :=
      { id := s.next_department_id
        name := dept_data.name
        description := dept_data.description
        is_active := true
        created_at := now
        updated_at := now }
    (some department,
      { s with departments := s.departments ++ [department],
               next_department_id := s.next_department_id + 1 })

/-- Apply the supplied (`exclude_unset`) fields of a `DepartmentUpdate`
to a row, stamping `updated_at`. -/
def applyDepartmentUpdate (now : Nat) (dept_data : DepartmentUpdate) (d : Department) :
    Department :=
  { d with
    name := dept_data.name.getD d.name
    description := dept_data.description.getD d.description
    is_active := dept_data.is_active.getD d.is_active
    updated_at := now }

/-- `DepartmentService.update_department`. -/
def update_department (now : Nat) (s : DBState) (dept_id : Nat)
    (dept_data : DepartmentUpdate) : Option Department × DBState :=
  match s.departments.find? (fun d => d.id == dept_id) with
  | none => (none, s)
  | some d =>
    let d1 := applyDepartmentUpdate now dept_data d
    (some d1,
      { s with departments := (s.departments.map (fun x => if x.id == dept_id then d1 else x)) })

/-- `DepartmentService.delete_department`: soft delete via `is_active`. -/
def delete_department (now : Nat) (s : DBState) (dept_id : Nat) : Bool × DBState :=
  match s.departments.find? (fun d => d.id == dept_id) with
  | none => (false, s)
  | some _ =>
    (true,
      { s with departments := (s.departments.map
          (fun x => if x.id == dept_id then { x with is_active := false, updated_at := now } else x)) })

/-- `DishService.get_available_dishes`. -/
def get_available_dishes (s : DBState) : List Dish :=
  s.dishes.filter (fun d => d.is_available)

/-- `DishService.get_all_dishes`. -/
def get_all_dishes (s : DBState) : List Dish :=
  s.dishes

/-- `DishService.get_dish_by_id` (`session.get(Dish, dish_id)`). -/
def get_dish_by_id (s : DBState) (dish_id : Nat) : Option Dish :=
  s.dishes.find? (fun d => d.id == dish_id)

/-- `DishService.create_dish`: unconditional insert. -/
def create_dish (now : Nat) (s : DBState) (dish_data : DishCreate) : Dish × DBState :=
  let dish : Dish :=
    { id := s.next_dish_id
      name := dish_data.name
      price := dish_data.price
      description := dish_data.description
      image_url := dish_data.image_url
      category := dish_data.category
      stock_quantity := dish_data.stock_quantity
      is_available := true
      created_at := now
      updated_at := now }
  (dish, { s with dishes := s.dishes ++ [dish], next_dish_id := s.next_dish_id + 1 })

/-- Apply the supplied (`exclude_unset`) fields of a `DishUpdate` to a
row, stamping `updated_at`. -/
def applyDishUpdate (now : Nat) (dish_data : DishUpdate) (d : Dish) : Dish :=
  { d with
    name := dish_data.name.getD d.name
    price := dish_data.price.getD d.price
    description := dish_data.description.getD d.description
    image_url := dish_data.image_url.getD d.image_url
    category := dish_data.category.getD d.category
    stock_quantity := dish_data.stock_quantity.getD d.stock_quantity
    is_available := dish_data.is_available.getD d.is_available
    updated_at := now }

/-- `DishService.update_dish`. -/
def update_dish (now : Nat) (s : DBState) (dish_id : Nat) (dish_data : DishUpdate) :
    Option Dish × DBState :=
  match s.dishes.find? (fun d => d.id == dish_id) with
  | none => (none, s)
  | some d =>
    let d1 := applyDishUpdate now dish_data d
    (some d1, { s with dishes := (s.dishes.map (fun x => if x.id == dish_id then d1 else x)) })

/-- `DishService.delete_dish`: soft delete via `is_available`. -/
def delete_dish (now : Nat) (s : DBState) (dish_id : Nat) : Bool × DBState :=
  match s.dishes.find? (fun d => d.id == dish_id) with
  | none => (false, s)
  | some _ =>
    (true,
      { s with dishes := (s.dishes.map
          (fun x => if x.id == dish_id then { x with is_available := false, updated_at := now } else x)) })

/-- `CartService.get_cart_items`: the user's cart rows, in insertion
order. -/
def get_cart_items (s : DBState) (user_id : Nat) : List CartItem :=
  s.cart_items.filter (fun ci => ci.user_id == user_id)

/-- `CartService.add_to_cart`: reject if the dish is missing,
unavailable, or has stock below the requested quantity; then either
bump the existing row for this (user, dish) — rejecting if the summed
quantity exceeds stock — or insert a fresh row. -/
def add_to_cart (now : Nat) (s : DBState) (user_id : Nat) (cart_data : CartItemCreate) :
    Option CartItem × DBState :=
  match get_dish_by_id s cart_data.dish_id with
  | none => (none, s)
  | some dish =>
    if ¬ dish.is_available then (none, s)
    else if dish.stock_quantity < cart_data.quantity then (none, s)
    else
      match s.cart_items.find?
          (fun ci => ci.user_id == user_id && ci.dish_id == cart_data.dish_id) with
      | some existing_item =>
        let new_quantity := existing_item.quantity + cart_data.quantity
        if dish.stock_quantity < new_quantity then (none, s)
        else
          let updated := { existing_item with quantity := new_quantity, updated_at := now }
          (some updated,
            { s with cart_items := (s.cart_items.map
                (fun ci => if ci.id == existing_item.id then updated else ci)) })
      | none =>
        let cart_item : CartItem :=
          { id := s.next_cart_item_id
            user_id := user_id
            dish_id := cart_data.dish_id
            quantity := cart_data.quantity
            created_at := now
            updated_at := now }
        (some cart_item,
          { s with cart_items := s.cart_items ++ [cart_item],
                   next_cart_item_id := s.next_cart_item_id + 1 })

/-- `CartService.clear_cart`: delete every cart row of the user;
always returns `true`. -/
def clear_cart (s : DBState) (user_id : Nat) : Bool × DBState :=
  (true, { s with cart_items := (s.cart_items.filter (fun ci => ¬ ci.user_id == user_id)) })

/-- `CartService.get_cart_total`: Σ dish.price × quantity over the cart,
at current catalog prices, skipping rows whose dish no longer resolves. -/
def get_cart_total (s : DBState) (user_id : Nat) : Int :=
  (get_cart_items s user_id).foldl
    (fun total item =>
      match get_dish_by_id s item.dish_id with
      | some dish => total + dish.price * item.quantity
      | none => total)
    0

/-- Modelled from the spec: `CartService.remove_from_cart`, called by
`user_dashboard.remove_item` but defined in `app/services.py`, which is
not part of the available sources.  Spec §4.2: "`remove(user,
cart_item)`: deletes the row; idempotent-by-id (removing a nonexistent
id is a no-op failure, not a crash)". -/
def remove_from_cart (s : DBState) (user_id : Nat) (cart_item_id : Nat) : Bool × DBState :=
  match s.cart_items.find? (fun ci => ci.id == cart_item_id && ci.user_id == user_id) with
  | none => (false, s)
  | some _ =>
    (true, { s with cart_items := (s.cart_items.filter
        (fun ci => ¬ (ci.id == cart_item_id && ci.user_id == user_id))) })

/-- Modelled from the spec: `CartService.update_cart_item`, called by
`user_dashboard.update_quantity` but defined in `app/services.py`,
which is not part of the available sources.  Spec §4.2: "`update(user,
cart_item, new_quantity)`: replaces quantity; same stock-ceiling
validation applies; quantity must stay ≥ 1". -/
def update_cart_item (now : Nat) (s : DBState) (user_id : Nat) (cart_item_id : Nat)
    (update_data : CartItemUpdate) : Option CartItem × DBState :=
  match s.cart_items.find? (fun ci => ci.id == cart_item_id && ci.user_id == user_id) with
  | none => (none, s)
  | some item =>
    match get_dish_by_id s item.dish_id with
    | none => (none, s)
    | some dish =>
      if dish.stock_quantity < update_data.quantity then (none, s)
      else
        let updated := { item with quantity := update_data.quantity, updated_at := now }
        (some updated,
          { s with cart_items := (s.cart_items.map
              (fun ci => if ci.id == item.id then updated else ci)) })

/-- The per-line snapshot collected by the pricing loop of
`OrderService.create_order_from_cart` (the `order_items_data` dicts);
prices in cents. -/
structure OrderItemData where
  dish_id : Nat
  quantity : Int
  unit_price : Int
  subtotal : Int
deriving DecidableEq

/-- The validation-and-pricing loop of `create_order_from_cart`: walk
the cart rows in order; fail on the first row whose dish is missing,
unavailable, or short on stock; otherwise record the snapshot
`unit_price = dish.price`, `subtotal = dish.price * quantity` and
accumulate the total (addition reassociated — exact in `Int`). -/
def buildOrderItems (s : DBState) : List CartItem → Option (Int × List OrderItemData)
  | [] => some (0, [])
  | cart_item :: rest =>
    match get_dish_by_id s cart_item.dish_id with
    | none => none
    | some dish =>
      if ¬ dish.is_available then none
      else if dish.stock_quantity < cart_item.quantity then none
      else
        match buildOrderItems s rest with
        | none => none
        | some (total, items) =>
          some (dish.price * cart_item.quantity + total,
            { dish_id := dish.id
              quantity := cart_item.quantity
              unit_price := dish.price
              subtotal := dish.price * cart_item.quantity } :: items)

/-- Materialise the collected snapshots as `OrderItem` rows of the
given order, with consecutive auto-increment ids. -/
def mkOrderItems (first_id : Nat) (order_id : Nat) : List OrderItemData → List OrderItem
  | [] => []
  | d :: rest =>
    { id := first_id
      order_id := order_id
      dish_id := d.dish_id
      quantity := d.quantity
      unit_price := d.unit_price
      subtotal := d.subtotal } :: mkOrderItems (first_id + 1) order_id rest

/-- One pass of the stock-update loop body of `create_order_from_cart`:
`if item_data["dish_id"]: dish = session.get(Dish, ...); if dish:
dish.stock_quantity -= item_data["quantity"]`. -/
def decrementStock (now : Nat) (dishes : List Dish) (d : OrderItemData) : List Dish :=
  if d.dish_id ≠ 0 then
    dishes.map (fun dish =>
      if dish.id == d.dish_id then
        { dish with stock_quantity := dish.stock_quantity - d.quantity, updated_at := now }
      else dish)
  else dishes

/-- The full stock-update loop of `create_order_from_cart`. -/
def applyStockDecrements (now : Nat) (dishes : List Dish) :
    List OrderItemData → List Dish
  | [] => dishes
  | d :: rest => applyStockDecrements now (decrementStock now dishes d) rest

/-- The effect of the stock-update loop on one dish row (the loop is a
composition of row-wise maps, so it acts on each row independently). -/
def foldDish (now : Nat) (d : Dish) : List OrderItemData → Dish
  | [] => d
  | it :: rest =>
    foldDish now
      (if it.dish_id ≠ 0 ∧ d.id = it.dish_id then
        { d with stock_quantity := d.stock_quantity - it.quantity, updated_at := now }
      else d) rest

/-- `OrderService.create_order_from_cart`, exposing each committed
state: the result is `(returned order, state after the first
`session.commit()`, state after the second `session.commit()`)`.
The source commits twice: the `Order` row alone is committed first (to
obtain its id), and only a second, separate commit adds the
`OrderItem` rows, decrements stock and deletes the cart rows. -/
def create_order_run (now : Nat) (s : DBState) (user_id : Nat) (order_data : OrderCreate) :
    Option Order × DBState × DBState :=
  let cart_items := s.cart_items.filter (fun ci => ci.user_id == user_id)
  if cart_items.isEmpty then (none, s, s)
  else
    match buildOrderItems s cart_items with
    | none => (none, s, s)
    | some (total_amount, order_items_data) =>
      let order : Order :=
        { id := s.next_order_id
          user_id := user_id
          order_date := now
          pickup_time := order_data.pickup_time
          delivery_type := order_data.delivery_type
          status := OrderStatus.pending
          total_amount := total_amount
          remarks := order_data.remarks.getD ""
          created_at := now
          updated_at := now }
      let s1 : DBState :=
        { s with orders := s.orders ++ [order], next_order_id := s.next_order_id + 1 }
      let s2 : DBState :=
        { s1 with
            order_items :=
              (s1.order_items ++ mkOrderItems s1.next_order_item_id order.id order_items_data)
            next_order_item_id := s1.next_order_item_id + order_items_data.length
            dishes := (applyStockDecrements now s1.dishes order_items_data)
            cart_items := (s1.cart_items.filter (fun ci => ¬ ci.user_id == user_id)) }
      (some order, s1, s2)

/-- `OrderService.create_order_from_cart` as the caller sees it on a
fault-free run: the returned order and the final committed state. -/
def create_order_from_cart (now : Nat) (s : DBState) (user_id : Nat)
    (order_data : OrderCreate) : Option Order × DBState :=
  ((create_order_run now s user_id order_data).1,
   (create_order_run now s user_id order_data).2.2)

/-- The committed state observed if a storage fault aborts
`create_order_from_cart` right after its first `session.commit()`:
the `Order` row (if the run got that far) is durable, nothing else is. -/
def create_order_first_commit (now : Nat) (s : DBState) (user_id : Nat)
    (order_data : OrderCreate) : DBState :=
  (create_order_run now s user_id order_data).2.1

/-- `OrderService.get_user_orders`. -/
def get_user_orders (s : DBState) (user_id : Nat) : List Order :=
  s.orders.filter (fun o => o.user_id == user_id)

/-- `OrderService.get_all_orders`. -/
def get_all_orders (s : DBState) : List Order :=
  s.orders

/-- `OrderService.get_order_by_id`. -/
def get_order_by_id (s : DBState) (order_id : Nat) : Option Order :=
  s.orders.find? (fun o => o.id == order_id)

/-- `OrderService.update_order_status`: unconditional overwrite of the
status field, no transition validation. -/
def update_order_status (now : Nat) (s : DBState) (order_id : Nat) (status : OrderStatus) :
    Option Order × DBState :=
  match s.orders.find? (fun o => o.id == order_id) with
  | none => (none, s)
  | some o =>
    let o1 := { o with status := status, updated_at := now }
    (some o1, { s with orders := (s.orders.map (fun x => if x.id == order_id then o1 else x)) })

/-- A concrete scenario exercising the order engine: the catalog holds
one dish (price 15.99, i.e. 1599 cents, stock 10). -/
def examplePizza : DishCreate :=
  { name := "Pizza", price := 1599, description := "Delicious pizza", image_url := none,
    category := "Pizza", stock_quantity := 10 }

/-- The scenario state: the dish is created and user 7 has 3 of it in
the cart. -/
def exampleState : DBState :=
  (add_to_cart 1 (create_dish 0 DBState.empty examplePizza).2 7
    { dish_id := 1, quantity := 3 }).2

/-- The scenario checkout request. -/
def exampleOrderData : OrderCreate :=
  { pickup_time := 3, delivery_type := DeliveryType.pickup, remarks := none }

/-- The order the scenario checkout creates: 3 × 1599 = 4797 cents
(15.99 × 3 = 47.97), status pending. -/
def exampleOrder : Order :=
  { id := 1, user_id := 7, order_date := 2, pickup_time := 3,
    delivery_type := DeliveryType.pickup, status := OrderStatus.pending,
    total_amount := 4797, remarks := "", created_at := 2, updated_at := 2 }

/-- The committed state after the scenario checkout completes. -/
def exampleFinalState : DBState :=
  (create_order_from_cart 2 exampleState 7 exampleOrderData).2

/-- A concrete registration request. -/
def exampleUserCreate : UserCreate :=
  { name := "U", email := "u@example.com", password := "password123",
    phone := "1", department_id := none }

/-- The account row that registering `exampleUserCreate` under the
identity hash function stores. -/
def exampleUser : User :=
  { id := 1, name := "U", email := "u@example.com", password_hash := "password123",
    phone := "1", role := UserRole.regular, department_id := none, is_active := true,
    created_at := 0, updated_at := 0 }

/-- One external service request, with its payload.  `opPlaceOrderFault`
is a `create_order_from_cart` call interrupted by a storage fault right
after its first `session.commit()`; every other operation runs to
completion. -/
inductive Op where
  | opRegisterUser (now : Nat) (ud : UserCreate)
  | opCreateDepartment (now : Nat) (dd : DepartmentCreate)
  | opUpdateDepartment (now : Nat) (dept_id : Nat) (du : DepartmentUpdate)
  | opDeleteDepartment (now : Nat) (dept_id : Nat)
  | opCreateDish (now : Nat) (dc : DishCreate)
  | opUpdateDish (now : Nat) (dish_id : Nat) (du : DishUpdate)
  | opDeleteDish (now : Nat) (dish_id : Nat)
  | opAddToCart (now : Nat) (user_id : Nat) (cd : CartItemCreate)
  | opUpdateCartItem (now : Nat) (user_id : Nat) (cart_item_id : Nat) (cu : CartItemUpdate)
  | opRemoveFromCart (user_id : Nat) (cart_item_id : Nat)
  | opClearCart (user_id : Nat)
  | opPlaceOrder (now : Nat) (user_id : Nat) (od : OrderCreate)
  | opPlaceOrderFault (now : Nat) (user_id : Nat) (od : OrderCreate)
  | opUpdateOrderStatus (now : Nat) (order_id : Nat) (st : OrderStatus)

/-- Pydantic validation of an operation's payload: requests with
invalid payloads are rejected before they reach the service layer. -/
def Op.Valid : Op → Prop
  | .opRegisterUser _ ud => ud.Valid
  | .opCreateDish _ dc => dc.Valid
  | .opUpdateDish _ _ du => du.Valid
  | .opAddToCart _ _ cd => cd.Valid
  | .opUpdateCartItem _ _ _ cu => cu.Valid
  | _ => True

/-- The committed state an operation leaves behind (failed requests
leave the state unchanged by construction of the service functions). -/
def Op.apply (hash_password : String → String) : Op → DBState → DBState
  | .opRegisterUser now ud, s => (register_user hash_password now s ud).2
  | .opCreateDepartment now dd, s => (create_department now s dd).2
  | .opUpdateDepartment now dept_id du, s => (update_department now s dept_id du).2
  | .opDeleteDepartment now dept_id, s => (delete_department now s dept_id).2
  | .opCreateDish now dc, s => (create_dish now s dc).2
  | .opUpdateDish now dish_id du, s => (update_dish now s dish_id du).2
  | .opDeleteDish now dish_id, s => (delete_dish now s dish_id).2
  | .opAddToCart now user_id cd, s => (add_to_cart now s user_id cd).2
  | .opUpdateCartItem now user_id cart_item_id cu, s =>
      (update_cart_item now s user_id cart_item_id cu).2
  | .opRemoveFromCart user_id cart_item_id, s => (remove_from_cart s user_id cart_item_id).2
  | .opClearCart user_id, s => (clear_cart s user_id).2
  | .opPlaceOrder now user_id od, s => (create_order_from_cart now s user_id od).2
  | .opPlaceOrderFault now user_id od, s => create_order_first_commit now s user_id od
  | .opUpdateOrderStatus now order_id st, s => (update_order_status now s order_id st).2

/-- The committed states reachable from the fresh database through
valid service requests, including fault-interrupted order placements. -/
inductive Reachable (hash_password : String → String) : DBState → Prop where
  | empty : Reachable hash_password DBState.empty
  | step {s : DBState} (op : Op) :
      Reachable hash_password s → op.Valid → Reachable hash_password (op.apply hash_password s)

/-- No two cart rows for the same (user, dish) pair. -/
def CartUnique (l : List CartItem) : Prop :=
  l.Pairwise (fun a b => ¬ (a.user_id = b.user_id ∧ a.dish_id = b.dish_id))

/-- The structural invariants of a committed database state. -/
structure WF (s : DBState) : Prop where
  stock_nonneg : ∀ d ∈ s.dishes, 0 ≤ d.stock_quantity
  dish_ids_nodup : (s.dishes.map Dish.id).Nodup
  dish_ids_pos : ∀ d ∈ s.dishes, d.id ≠ 0
  dish_ids_lt : ∀ d ∈ s.dishes, d.id < s.next_dish_id
  next_dish_id_pos : 1 ≤ s.next_dish_id
  cart_unique : CartUnique s.cart_items
  cart_ids_nodup : (s.cart_items.map CartItem.id).Nodup
  cart_ids_lt : ∀ ci ∈ s.cart_items, ci.id < s.next_cart_item_id
  cart_qty_pos : ∀ ci ∈ s.cart_items, 1 ≤ ci.quantity
  order_ids_nodup : (s.orders.map Order.id).Nodup
  order_ids_lt : ∀ o ∈ s.orders, o.id < s.next_order_id
  order_item_order_id_lt : ∀ oi ∈ s.order_items, oi.order_id < s.next_order_id

/-- In a list whose keys are pairwise distinct, `find?` by a member's
key returns exactly that member. -/
theorem find?_eq_some_of_key_nodup {α β : Type} [DecidableEq β] (key : α → β) :
    ∀ {l : List α} {a : α}, (l.map key).Nodup → a ∈ l →
      l.find? (fun x => key x == key a) = some a := by
  intro l
  induction l with
  | nil => intro a _ ha; cases ha
  | cons b t ih =>
    intro a hnd ha
    rw [List.map_cons, List.nodup_cons] at hnd
    rcases List.mem_cons.mp ha with rfl | hat
    · rw [List.find?_cons_of_pos]
      simp
    · have hne : key b ≠ key a := fun h => hnd.1 (h ▸ List.mem_map_of_mem key hat)
      rw [List.find?_cons_of_neg]
      · exact ih hnd.2 hat
      · simp [hne]

/-- In a cart without duplicate (user, dish) pairs, the lookup done by
`add_to_cart` returns exactly the member row with that pair. -/
theorem cart_find?_pair_eq_some :
    ∀ {l : List CartItem}, CartUnique l → ∀ {ci : CartItem}, ci ∈ l →
      l.find? (fun x => x.user_id == ci.user_id && x.dish_id == ci.dish_id) = some ci := by
  intro l
  induction l with
  | nil => intro _ ci ha; cases ha
  | cons b t ih =>
    intro hu ci ha
    rw [CartUnique, List.pairwise_cons] at hu
    rcases List.mem_cons.mp ha with rfl | hat
    · rw [List.find?_cons_of_pos]
      simp
    · have hne := hu.1 ci hat
      rw [List.find?_cons_of_neg]
      · exact ih hu.2 hat
      · by_cases h1 : b.user_id = ci.user_id
        · by_cases h2 : b.dish_id = ci.dish_id
          · exact absurd ⟨h1, h2⟩ hne
          · simp [h2]
        · simp [h1]

/-- `get_dish_by_id` at a member dish's id, under unique dish ids. -/
theorem get_dish_by_id_eq_some {s : DBState} (hnd : (s.dishes.map Dish.id).Nodup)
    {d : Dish} (hd : d ∈ s.dishes) : get_dish_by_id s d.id = some d :=
  find?_eq_some_of_key_nodup Dish.id hnd hd

/-- `get_dish_by_id` only returns member rows carrying the queried id. -/
theorem get_dish_by_id_mem {s : DBState} {k : Nat} {d : Dish}
    (h : get_dish_by_id s k = some d) : d ∈ s.dishes ∧ d.id = k := by
  refine ⟨List.mem_of_find?_eq_some h, ?_⟩
  have := List.find?_some h
  simpa using this

/-- Right-membership extraction from a linewise correspondence. -/
theorem forall₂_mem_right {α β : Type} {R : α → β → Prop} :
    ∀ {l1 : List α} {l2 : List β}, List.Forall₂ R l1 l2 →
      ∀ b ∈ l2, ∃ a ∈ l1, R a b := by
  intro l1 l2 h
  induction h with
  | nil => intro b hb; cases hb
  | @cons a b l1t l2t hR _ ih =>
    intro x hx
    rcases List.mem_cons.mp hx with rfl | hx
    · exact ⟨a, List.mem_cons_self a l1t, hR⟩
    · rcases ih x hx with ⟨a2, ha2, hr⟩
      exact ⟨a2, List.mem_cons_of_mem a ha2, hr⟩

/-- Chaining two linewise correspondences. -/
theorem forall₂_trans {α β γ : Type} {R : α → β → Prop} {Q : β → γ → Prop} :
    ∀ {l1 : List α} {l2 : List β} {l3 : List γ},
      List.Forall₂ R l1 l2 → List.Forall₂ Q l2 l3 →
      List.Forall₂ (fun a c => ∃ b, R a b ∧ Q b c) l1 l3 := by
  intro l1 l2 l3 h
  induction h generalizing l3 with
  | nil =>
    intro hq
    cases hq
    exact List.Forall₂.nil
  | @cons a b l1t l2t hR _ ih =>
    intro hq
    cases hq with
    | cons hQ hrest => exact List.Forall₂.cons ⟨b, hR, hQ⟩ (ih hrest)

/-- Everything the pricing loop of `create_order_from_cart` records,
line by line and in cart order, when it succeeds. -/
theorem buildOrderItems_forall₂ {s : DBState} :
    ∀ {cart : List CartItem} {total : Int} {items : List OrderItemData},
      buildOrderItems s cart = some (total, items) →
      List.Forall₂ (fun (ci : CartItem) (it : OrderItemData) =>
        ∃ dish, get_dish_by_id s ci.dish_id = some dish ∧
          dish.is_available = true ∧ ci.quantity ≤ dish.stock_quantity ∧
          it.dish_id = dish.id ∧ it.quantity = ci.quantity ∧
          it.unit_price = dish.price ∧ it.subtotal = dish.price * ci.quantity)
        cart items := by
  intro cart
  induction cart with
  | nil =>
    intro total items h
    rw [buildOrderItems] at h
    cases h
    exact List.Forall₂.nil
  | cons ci rest ih =>
    intro total items h
    rw [buildOrderItems] at h
    split at h
    · cases h
    · rename_i dish hdish
      split at h
      · cases h
      · rename_i hav
        split at h
        · cases h
        · rename_i hstock
          split at h
          · cases h
          · rename_i t its hrest
            cases h
            exact List.Forall₂.cons
              ⟨dish, hdish, by simpa using hav, le_of_not_lt hstock, rfl, rfl, rfl, rfl⟩
              (ih hrest)

/-- The accumulated `total_amount` is exactly the sum of the recorded
subtotals (2-decimal fixed-point arithmetic embedded as exact `Int`
cents). -/
theorem buildOrderItems_total {s : DBState} :
    ∀ {cart : List CartItem} {total : Int} {items : List OrderItemData},
      buildOrderItems s cart = some (total, items) →
      (items.map OrderItemData.subtotal).sum = total := by
  intro cart
  induction cart with
  | nil =>
    intro total items h
    rw [buildOrderItems] at h
    cases h
    simp
  | cons ci rest ih =>
    intro total items h
    rw [buildOrderItems] at h
    split at h
    · cases h
    · rename_i dish hdish
      split at h
      · cases h
      · split at h
        · cases h
        · split at h
          · cases h
          · rename_i t its hrest
            cases h
            simp [ih hrest]

/-- The recorded lines carry the dish ids of the cart lines, in order. -/
theorem buildOrderItems_dish_ids {s : DBState} {cart : List CartItem} {total : Int}
    {items : List OrderItemData} (h : buildOrderItems s cart = some (total, items)) :
    items.map OrderItemData.dish_id = cart.map CartItem.dish_id := by
  have h2 := buildOrderItems_forall₂ h
  clear h
  induction h2 with
  | nil => rfl
  | @cons ci it l1t l2t hR _ ih =>
    rcases hR with ⟨dish, hdish, _, _, hid, _⟩
    have hd := get_dish_by_id_mem hdish
    simp only [List.map_cons, ih]
    rw [hid, hd.2]

/-- One pass of the stock-update loop acts row-wise. -/
theorem decrementStock_eq_map (now : Nat) (dishes : List Dish) (it : OrderItemData) :
    decrementStock now dishes it = dishes.map (fun d =>
      if it.dish_id ≠ 0 ∧ d.id = it.dish_id then
        { d with stock_quantity := d.stock_quantity - it.quantity, updated_at := now }
      else d) := by
  rw [decrementStock]
  by_cases h : it.dish_id ≠ 0
  · rw [if_pos h]
    apply List.map_congr_left
    intro d _
    by_cases h2 : d.id = it.dish_id
    · simp [h, h2]
    · simp [h, h2]
  · rw [if_neg h]
    have : ∀ d ∈ dishes, (if it.dish_id ≠ 0 ∧ d.id = it.dish_id then
        { d with stock_quantity := d.stock_quantity - it.quantity, updated_at := now }
      else d) = d := by
      intro d _
      rw [if_neg (fun hc => h hc.1)]
    rw [List.map_congr_left this, List.map_id']

/-- The whole stock-update loop acts row-wise through `foldDish`. -/
theorem applyStockDecrements_eq_map (now : Nat) :
    ∀ (items : List OrderItemData) (dishes : List Dish),
      applyStockDecrements now dishes items =
        dishes.map (fun d => foldDish now d items) := by
  intro items
  induction items with
  | nil =>
    intro dishes
    rw [applyStockDecrements]
    have : ∀ d ∈ dishes, foldDish now d [] = d := fun d _ => rfl
    rw [List.map_congr_left this, List.map_id']
  | cons it rest ih =>
    intro dishes
    rw [applyStockDecrements, decrementStock_eq_map, ih, List.map_map]
    apply List.map_congr_left
    intro d _
    simp only [Function.comp_apply]
    rw [foldDish]

/-- The stock-update loop never changes a row's primary key. -/
theorem foldDish_id (now : Nat) :
    ∀ (items : List OrderItemData) (d : Dish), (foldDish now d items).id = d.id := by
  intro items
  induction items with
  | nil => intro d; rfl
  | cons it rest ih =>
    intro d
    rw [foldDish]
    by_cases h : it.dish_id ≠ 0 ∧ d.id = it.dish_id
    · rw [if_pos h]
      exact ih _
    · rw [if_neg h]
      exact ih d

/-- A dish row referenced by no line is untouched by the stock loop. -/
theorem foldDish_no_match (now : Nat) :
    ∀ (items : List OrderItemData) (d : Dish),
      d.id ∉ items.map OrderItemData.dish_id → foldDish now d items = d := by
  intro items
  induction items with
  | nil => intro d _; rfl
  | cons it rest ih =>
    intro d hd
    rw [List.map_cons, List.mem_cons] at hd
    push_neg at hd
    rw [foldDish, if_neg (fun hc => hd.1 hc.2)]
    exact ih d hd.2

/-- With no duplicate line dish ids, a dish row referenced by a line is
decremented exactly once, by that line's quantity. -/
theorem foldDish_match (now : Nat) :
    ∀ (items : List OrderItemData) (d : Dish) (it : OrderItemData),
      (items.map OrderItemData.dish_id).Nodup → it ∈ items → it.dish_id ≠ 0 →
      d.id = it.dish_id →
      foldDish now d items =
        { d with stock_quantity := d.stock_quantity - it.quantity, updated_at := now } := by
  intro items
  induction items with
  | nil => intro d it _ hit; cases hit
  | cons hd_it rest ih =>
    intro d it hnd hit hne hid
    rw [List.map_cons, List.nodup_cons] at hnd
    rcases List.mem_cons.mp hit with rfl | hit
    · rw [foldDish, if_pos ⟨hne, hid⟩]
      apply foldDish_no_match
      simpa [hid] using hnd.1
    · have hneq : d.id ≠ hd_it.dish_id := by
        intro h
        exact hnd.1 ((hid.symm.trans h) ▸ List.mem_map_of_mem OrderItemData.dish_id hit)
      rw [foldDish, if_neg (fun hc => hneq hc.2)]
      exact ih d it hnd.2 hit hne hid

/-- Primary keys of the dish table, as a list, survive the stock loop. -/
theorem applyStockDecrements_ids (now : Nat) (dishes : List Dish)
    (items : List OrderItemData) :
    (applyStockDecrements now dishes items).map Dish.id = dishes.map Dish.id := by
  rw [applyStockDecrements_eq_map, List.map_map]
  apply List.map_congr_left
  intro d _
  exact foldDish_id now items d

/-- The stock loop keeps every stock quantity non-negative, provided
every line was validated against the current stock and no two lines
name the same dish. -/
theorem applyStockDecrements_nonneg {now : Nat} {dishes : List Dish}
    {items : List OrderItemData}
    (hnd : (items.map OrderItemData.dish_id).Nodup)
    (hids : ∀ d ∈ dishes, d.id ≠ 0)
    (hpos : ∀ d ∈ dishes, 0 ≤ d.stock_quantity)
    (hbound : ∀ it ∈ items, ∀ d ∈ dishes, d.id = it.dish_id →
      it.quantity ≤ d.stock_quantity) :
    ∀ d ∈ applyStockDecrements now dishes items, 0 ≤ d.stock_quantity := by
  rw [applyStockDecrements_eq_map]
  intro d2 hd2
  rcases List.mem_map.mp hd2 with ⟨d, hd, rfl⟩
  by_cases hmem : d.id ∈ items.map OrderItemData.dish_id
  · rcases List.mem_map.mp hmem with ⟨it, hit, hid⟩
    rw [foldDish_match now items d it hnd hit (hid ▸ hids d hd) hid.symm]
    have := hbound it hit d hd hid.symm
    simp only []
    omega
  · rw [foldDish_no_match now items d hmem]
    exact hpos d hd

/-- Structural invariants are untouched by operations that only write
the department or user tables. -/
theorem WF.irrelevant {s : DBState} (hwf : WF s) (departments : List Department)
    (users : List User) (ndid nuid : Nat) :
    WF { s with departments := departments, users := users,
                next_department_id := ndid, next_user_id := nuid } :=
  ⟨hwf.stock_nonneg, hwf.dish_ids_nodup, hwf.dish_ids_pos, hwf.dish_ids_lt,
   hwf.next_dish_id_pos, hwf.cart_unique, hwf.cart_ids_nodup, hwf.cart_ids_lt,
   hwf.cart_qty_pos, hwf.order_ids_nodup, hwf.order_ids_lt, hwf.order_item_order_id_lt⟩

/-- A map that preserves a key on every member preserves the key list. -/
theorem map_key_of_pointwise {α β : Type} (key : α → β) (f : α → α) {l : List α}
    (h : ∀ x ∈ l, key (f x) = key x) : (l.map f).map key = l.map key := by
  rw [List.map_map]
  exact List.map_congr_left h

/-- A map preserving user and dish of every member preserves cart
uniqueness. -/
theorem cart_unique_map_of_keys {l : List CartItem} (f : CartItem → CartItem)
    (hu : CartUnique l)
    (hkeys : ∀ x ∈ l, (f x).user_id = x.user_id ∧ (f x).dish_id = x.dish_id) :
    CartUnique (l.map f) := by
  rw [CartUnique, List.pairwise_map]
  refine hu.imp_of_mem ?_
  intro a b ha hb hr hc
  exact hr ⟨((hkeys a ha).1).symm.trans (hc.1.trans (hkeys b hb).1),
            ((hkeys a ha).2).symm.trans (hc.2.trans (hkeys b hb).2)⟩

/-- Within one user's cart rows, dish ids are pairwise distinct. -/
theorem cart_unique_filter_dish_ids {l : List CartItem} (hu : CartUnique l) (u : Nat) :
    (((l.filter (fun ci => ci.user_id == u)).map CartItem.dish_id)).Nodup := by
  have hsub : List.Sublist (l.filter (fun ci => ci.user_id == u)) l :=
    List.filter_sublist l
  have hp : CartUnique (l.filter (fun ci => ci.user_id == u)) := hu.sublist hsub
  rw [List.Nodup, List.pairwise_map]
  refine hp.imp_of_mem ?_
  intro a b ha hb hr hc
  have hau : a.user_id = u := by simpa using (List.mem_filter.mp ha).2
  have hbu : b.user_id = u := by simpa using (List.mem_filter.mp hb).2
  exact hr ⟨hau.trans hbu.symm, hc⟩

/-- Every row created by `mkOrderItems` belongs to the given order. -/
theorem mkOrderItems_order_id :
    ∀ (items : List OrderItemData) (fid oid : Nat),
      ∀ oi ∈ mkOrderItems fid oid items, oi.order_id = oid := by
  intro items
  induction items with
  | nil => intro fid oid oi hoi; cases hoi
  | cons it rest ih =>
    intro fid oid oi hoi
    rw [mkOrderItems] at hoi
    rcases List.mem_cons.mp hoi with rfl | hoi
    · rfl
    · exact ih (fid + 1) oid oi hoi

/-- `mkOrderItems` preserves the subtotal column, in order. -/
theorem mkOrderItems_subtotals :
    ∀ (items : List OrderItemData) (fid oid : Nat),
      (mkOrderItems fid oid items).map OrderItem.subtotal =
        items.map OrderItemData.subtotal := by
  intro items
  induction items with
  | nil => intro fid oid; rfl
  | cons it rest ih =>
    intro fid oid
    rw [mkOrderItems, List.map_cons, List.map_cons, ih]

/-- `mkOrderItems`, linewise. -/
theorem mkOrderItems_forall₂ :
    ∀ (items : List OrderItemData) (fid oid : Nat),
      List.Forall₂ (fun (it : OrderItemData) (oi : OrderItem) =>
          oi.order_id = oid ∧ oi.dish_id = it.dish_id ∧ oi.quantity = it.quantity ∧
          oi.unit_price = it.unit_price ∧ oi.subtotal = it.subtotal)
        items (mkOrderItems fid oid items) := by
  intro items
  induction items with
  | nil => intro fid oid; exact List.Forall₂.nil
  | cons it rest ih =>
    intro fid oid
    rw [mkOrderItems]
    exact List.Forall₂.cons ⟨rfl, rfl, rfl, rfl, rfl⟩ (ih (fid + 1) oid)

/-- Rows coming out of the stock loop are rows of the input table run
through `foldDish`. -/
theorem applyStockDecrements_mem {now : Nat} {dishes : List Dish}
    {items : List OrderItemData} :
    ∀ d2 ∈ applyStockDecrements now dishes items,
      ∃ d ∈ dishes, d2 = foldDish now d items := by
  rw [applyStockDecrements_eq_map]
  intro d2 hd2
  rcases List.mem_map.mp hd2 with ⟨d, hd, rfl⟩
  exact ⟨d, hd, rfl⟩

/-- `create_order_from_cart` on an empty cart: no commit at all. -/
theorem create_order_run_eq_of_empty {now : Nat} {s : DBState} {user_id : Nat}
    {od : OrderCreate}
    (hem : (s.cart_items.filter (fun ci => ci.user_id == user_id)).isEmpty = true) :
    create_order_run now s user_id od = (none, s, s) := by
  rw [create_order_run]
  simp only [hem]
  rfl

/-- `create_order_from_cart` when some line fails re-validation: no
commit at all. -/
theorem create_order_run_eq_of_invalid {now : Nat} {s : DBState} {user_id : Nat}
    {od : OrderCreate}
    (h : buildOrderItems s (s.cart_items.filter (fun ci => ci.user_id == user_id)) = none) :
    create_order_run now s user_id od = (none, s, s) := by
  rw [create_order_run]
  by_cases hem : (s.cart_items.filter (fun ci => ci.user_id == user_id)).isEmpty
  · simp only [hem]
    rfl
  · simp only [hem, h]
    rfl

/-- `create_order_from_cart` when the cart is non-empty and every line
re-validates: the returned order and both committed states, explicitly. -/
theorem create_order_run_eq_of_success {now : Nat} {s : DBState} {user_id : Nat}
    {od : OrderCreate} {total : Int} {items : List OrderItemData}
    (hem : (s.cart_items.filter (fun ci => ci.user_id == user_id)).isEmpty = false)
    (h : buildOrderItems s (s.cart_items.filter (fun ci => ci.user_id == user_id)) =
      some (total, items)) :
    create_order_run now s user_id od =
      (some { id := s.next_order_id, user_id := user_id, order_date := now,
              pickup_time := od.pickup_time, delivery_type := od.delivery_type,
              status := OrderStatus.pending, total_amount := total,
              remarks := od.remarks.getD "", created_at := now, updated_at := now },
       { s with
           orders := (s.orders ++
             [{ id := s.next_order_id, user_id := user_id, order_date := now,
                pickup_time := od.pickup_time, delivery_type := od.delivery_type,
                status := OrderStatus.pending, total_amount := total,
                remarks := od.remarks.getD "", created_at := now, updated_at := now }])
           next_order_id := s.next_order_id + 1 },
       { s with
           orders := (s.orders ++
             [{ id := s.next_order_id, user_id := user_id, order_date := now,
                pickup_time := od.pickup_time, delivery_type := od.delivery_type,
                status := OrderStatus.pending, total_amount := total,
                remarks := od.remarks.getD "", created_at := now, updated_at := now }])
           next_order_id := s.next_order_id + 1
           order_items := (s.order_items ++ mkOrderItems s.next_order_item_id s.next_order_id items)
           next_order_item_id := s.next_order_item_id + items.length
           dishes := (applyStockDecrements now s.dishes items)
           cart_items := (s.cart_items.filter (fun ci => ¬ ci.user_id == user_id)) }) := by
  rw [create_order_run]
  simp only [hem, h]
  rfl

/-- Registration writes only the user table. -/
theorem wf_register_user {s : DBState} (hwf : WF s) (now : Nat) (ud : UserCreate) :
    WF (register_user hash_password now s ud).2 := by
  rw [register_user]
  split
  · exact hwf
  · exact hwf.irrelevant _ _ _ _

/-- Department creation writes only the department table. -/
theorem wf_create_department {s : DBState} (hwf : WF s) (now : Nat)
    (dd : DepartmentCreate) : WF (create_department now s dd).2 := by
  rw [create_department]
  split
  · exact hwf
  · exact hwf.irrelevant _ _ _ _

/-- Department update writes only the department table. -/
theorem wf_update_department {s : DBState} (hwf : WF s) (now : Nat) (dept_id : Nat)
    (du : DepartmentUpdate) : WF (update_department now s dept_id du).2 := by
  rw [update_department]
  split
  · exact hwf
  · exact hwf.irrelevant _ _ _ _

/-- Department soft delete writes only the department table. -/
theorem wf_delete_department {s : DBState} (hwf : WF s) (now : Nat) (dept_id : Nat) :
    WF (delete_department now s dept_id).2 := by
  rw [delete_department]
  split
  · exact hwf
  · exact hwf.irrelevant _ _ _ _

/-- Creating a dish preserves the invariants: the new row gets the
fresh id and a validated non-negative stock. -/
theorem wf_create_dish {s : DBState} (hwf : WF s) (now : Nat) {dc : DishCreate}
    (hv : dc.Valid) : WF (create_dish now s dc).2 := by
  rw [create_dish]
  refine ⟨?_, ?_, ?_, ?_, ?_, hwf.cart_unique, hwf.cart_ids_nodup, hwf.cart_ids_lt,
    hwf.cart_qty_pos, hwf.order_ids_nodup, hwf.order_ids_lt, hwf.order_item_order_id_lt⟩
  · intro d hd
    rcases List.mem_append.mp hd with hd | hd
    · exact hwf.stock_nonneg d hd
    · rw [List.mem_singleton.mp hd]
      exact hv
  · rw [List.map_append]
    refine List.Nodup.append hwf.dish_ids_nodup (List.nodup_singleton _) ?_
    intro a ha hb
    rw [List.map_singleton, List.mem_singleton] at hb
    rcases List.mem_map.mp ha with ⟨d, hd, rfl⟩
    exact absurd (hb ▸ hwf.dish_ids_lt d hd) (lt_irrefl _)
  · intro d hd
    rcases List.mem_append.mp hd with hd | hd
    · exact hwf.dish_ids_pos d hd
    · rw [List.mem_singleton.mp hd]
      exact Nat.one_le_iff_ne_zero.mp hwf.next_dish_id_pos
  · intro d hd
    rcases List.mem_append.mp hd with hd | hd
    · exact Nat.lt_succ_of_lt (hwf.dish_ids_lt d hd)
    · rw [List.mem_singleton.mp hd]
      exact Nat.lt_succ_self _
  · exact le_trans hwf.next_dish_id_pos (Nat.le_succ _)

/-- Updating a dish preserves the invariants: ids are untouched and a
supplied stock value was validated non-negative. -/
theorem wf_update_dish {s : DBState} (hwf : WF s) (now : Nat) (dish_id : Nat)
    {du : DishUpdate} (hv : du.Valid) : WF (update_dish now s dish_id du).2 := by
  rw [update_dish]
  split
  · exact hwf
  · rename_i d hfind
    have hdmem : d ∈ s.dishes := List.mem_of_find?_eq_some hfind
    have hdid : d.id = dish_id := by simpa using List.find?_some hfind
    have hkey : ∀ x ∈ s.dishes,
        (if x.id == dish_id then applyDishUpdate now du d else x).id = x.id := by
      intro x _
      by_cases hx : x.id = dish_id
      · rw [if_pos (by simpa using hx), applyDishUpdate]
        rw [hx, ← hdid]
      · rw [if_neg (by simpa using hx)]
    refine ⟨?_, ?_, ?_, ?_, hwf.next_dish_id_pos, hwf.cart_unique, hwf.cart_ids_nodup,
      hwf.cart_ids_lt, hwf.cart_qty_pos, hwf.order_ids_nodup, hwf.order_ids_lt,
      hwf.order_item_order_id_lt⟩
    · intro d2 hd2
      rcases List.mem_map.mp hd2 with ⟨x, hx, rfl⟩
      by_cases hxid : x.id = dish_id
      · rw [if_pos (by simpa using hxid), applyDishUpdate]
        cases hq : du.stock_quantity with
        | none => simpa [hq] using hwf.stock_nonneg d hdmem
        | some v => simpa [hq] using hv v hq
      · rw [if_neg (by simpa using hxid)]
        exact hwf.stock_nonneg x hx
    · rw [map_key_of_pointwise Dish.id _ hkey]
      exact hwf.dish_ids_nodup
    · intro d2 hd2
      rcases List.mem_map.mp hd2 with ⟨x, hx, rfl⟩
      rw [hkey x hx]
      exact hwf.dish_ids_pos x hx
    · intro d2 hd2
      rcases List.mem_map.mp hd2 with ⟨x, hx, rfl⟩
      rw [hkey x hx]
      exact hwf.dish_ids_lt x hx

/-- Soft-deleting a dish touches only its availability flag. -/
theorem wf_delete_dish {s : DBState} (hwf : WF s) (now : Nat) (dish_id : Nat) :
    WF (delete_dish now s dish_id).2 := by
  rw [delete_dish]
  split
  · exact hwf
  · have hkey : ∀ x ∈ s.dishes,
        (if x.id == dish_id then { x with is_available := false, updated_at := now }
         else x).id = x.id := by
      intro x _
      by_cases hx : x.id = dish_id
      · rw [if_pos (by simpa using hx)]
      · rw [if_neg (by simpa using hx)]
    have hstock : ∀ x ∈ s.dishes,
        (if x.id == dish_id then { x with is_available := false, updated_at := now }
         else x).stock_quantity = x.stock_quantity := by
      intro x _
      by_cases hx : x.id = dish_id
      · rw [if_pos (by simpa using hx)]
      · rw [if_neg (by simpa using hx)]
    refine ⟨?_, ?_, ?_, ?_, hwf.next_dish_id_pos, hwf.cart_unique, hwf.cart_ids_nodup,
      hwf.cart_ids_lt, hwf.cart_qty_pos, hwf.order_ids_nodup, hwf.order_ids_lt,
      hwf.order_item_order_id_lt⟩
    · intro d2 hd2
      rcases List.mem_map.mp hd2 with ⟨x, hx, rfl⟩
      rw [hstock x hx]
      exact hwf.stock_nonneg x hx
    · rw [map_key_of_pointwise Dish.id _ hkey]
      exact hwf.dish_ids_nodup
    · intro d2 hd2
      rcases List.mem_map.mp hd2 with ⟨x, hx, rfl⟩
      rw [hkey x hx]
      exact hwf.dish_ids_pos x hx
    · intro d2 hd2
      rcases List.mem_map.mp hd2 with ⟨x, hx, rfl⟩
      rw [hkey x hx]
      exact hwf.dish_ids_lt x hx

/-- Deleting any subset of cart rows preserves the invariants. -/
theorem wf_cart_filter {s : DBState} (hwf : WF s) (p : CartItem → Bool) :
    WF { s with cart_items := (s.cart_items.filter p) } := by
  have hsub : List.Sublist (s.cart_items.filter p) s.cart_items := List.filter_sublist _
  refine ⟨hwf.stock_nonneg, hwf.dish_ids_nodup, hwf.dish_ids_pos, hwf.dish_ids_lt,
    hwf.next_dish_id_pos, hwf.cart_unique.sublist hsub, ?_, ?_, ?_,
    hwf.order_ids_nodup, hwf.order_ids_lt, hwf.order_item_order_id_lt⟩
  · exact hwf.cart_ids_nodup.sublist (hsub.map CartItem.id)
  · intro ci hci
    exact hwf.cart_ids_lt ci (List.mem_of_mem_filter hci)
  · intro ci hci
    exact hwf.cart_qty_pos ci (List.mem_of_mem_filter hci)

/-- `add_to_cart` preserves the invariants: the bump branch keeps keys
and raises a positive quantity, the insert branch adds a fresh id for a
pair that was just checked absent. -/
theorem wf_add_to_cart {s : DBState} (hwf : WF s) (now : Nat) (user_id : Nat)
    {cd : CartItemCreate} (hv : cd.Valid) : WF (add_to_cart now s user_id cd).2 := by
  rw [add_to_cart]
  split
  · exact hwf
  · rename_i dish hdish
    split
    · exact hwf
    · split
      · exact hwf
      · split
        · rename_i existing hfind
          dsimp only
          split
          · exact hwf
          · have hexmem : existing ∈ s.cart_items := List.mem_of_find?_eq_some hfind
            have hkey : ∀ x ∈ s.cart_items,
                ((if x.id == existing.id then ({ existing with quantity := existing.quantity + cd.quantity, updated_at := now } : CartItem) else x) : CartItem).id = x.id ∧
                ((if x.id == existing.id then ({ existing with quantity := existing.quantity + cd.quantity, updated_at := now } : CartItem) else x) : CartItem).user_id = x.user_id ∧
                ((if x.id == existing.id then ({ existing with quantity := existing.quantity + cd.quantity, updated_at := now } : CartItem) else x) : CartItem).dish_id = x.dish_id := by
              intro x hx
              by_cases hxid : x.id = existing.id
              · have hxeq : x = existing :=
                  List.inj_on_of_nodup_map hwf.cart_ids_nodup hx hexmem hxid
                rw [if_pos (by simpa using hxid), hxeq]
                exact ⟨rfl, rfl, rfl⟩
              · rw [if_neg (by simpa using hxid)]
                exact ⟨rfl, rfl, rfl⟩
            refine ⟨hwf.stock_nonneg, hwf.dish_ids_nodup, hwf.dish_ids_pos,
              hwf.dish_ids_lt, hwf.next_dish_id_pos, ?_, ?_, ?_, ?_,
              hwf.order_ids_nodup, hwf.order_ids_lt, hwf.order_item_order_id_lt⟩
            · exact cart_unique_map_of_keys _ hwf.cart_unique
                (fun x hx => ⟨(hkey x hx).2.1, (hkey x hx).2.2⟩)
            · rw [map_key_of_pointwise CartItem.id _ (fun x hx => (hkey x hx).1)]
              exact hwf.cart_ids_nodup
            · intro ci hci
              rcases List.mem_map.mp hci with ⟨x, hx, rfl⟩
              rw [(hkey x hx).1]
              exact hwf.cart_ids_lt x hx
            · intro ci hci
              rcases List.mem_map.mp hci with ⟨x, hx, rfl⟩
              by_cases hxid : x.id = existing.id
              · have hq := hwf.cart_qty_pos existing hexmem
                rw [if_pos (by simpa using hxid)]
                have hq2 : (1 : Int) ≤ cd.quantity := hv
                simp only []
                omega
              · rw [if_neg (by simpa using hxid)]
                exact hwf.cart_qty_pos x hx
        · rename_i hfind
          dsimp only
          have habsent := List.find?_eq_none.mp hfind
          refine ⟨hwf.stock_nonneg, hwf.dish_ids_nodup, hwf.dish_ids_pos,
            hwf.dish_ids_lt, hwf.next_dish_id_pos, ?_, ?_, ?_, ?_,
            hwf.order_ids_nodup, hwf.order_ids_lt, hwf.order_item_order_id_lt⟩
          · rw [CartUnique, List.pairwise_append]
            refine ⟨hwf.cart_unique, List.pairwise_singleton _ _, ?_⟩
            intro a ha b hb hab
            rw [List.mem_singleton.mp hb] at hab
            have := habsent a ha
            simp only [Bool.and_eq_true, beq_iff_eq, not_and] at this
            exact this hab.1 hab.2
          · rw [List.map_append]
            refine List.Nodup.append hwf.cart_ids_nodup (List.nodup_singleton _) ?_
            intro a ha hb
            rw [List.map_singleton, List.mem_singleton] at hb
            rcases List.mem_map.mp ha with ⟨ci, hci, rfl⟩
            exact absurd (hb ▸ hwf.cart_ids_lt ci hci) (lt_irrefl _)
          · intro ci hci
            rcases List.mem_append.mp hci with hci | hci
            · exact Nat.lt_succ_of_lt (hwf.cart_ids_lt ci hci)
            · rw [List.mem_singleton.mp hci]
              exact Nat.lt_succ_self _
          · intro ci hci
            rcases List.mem_append.mp hci with hci | hci
            · exact hwf.cart_qty_pos ci hci
            · rw [List.mem_singleton.mp hci]
              exact hv

/-- The (spec-modelled) cart-quantity update preserves the invariants. -/
theorem wf_update_cart_item {s : DBState} (hwf : WF s) (now : Nat) (user_id : Nat)
    (cart_item_id : Nat) {cu : CartItemUpdate} (hv : cu.Valid) :
    WF (update_cart_item now s user_id cart_item_id cu).2 := by
  rw [update_cart_item]
  split
  · exact hwf
  · rename_i item hfind
    split
    · exact hwf
    · rename_i dish hdish
      split
      · exact hwf
      · dsimp only
        have hitmem : item ∈ s.cart_items := List.mem_of_find?_eq_some hfind
        have hkey : ∀ x ∈ s.cart_items,
            ((if x.id == item.id then ({ item with quantity := cu.quantity, updated_at := now } : CartItem) else x) : CartItem).id = x.id ∧
            ((if x.id == item.id then ({ item with quantity := cu.quantity, updated_at := now } : CartItem) else x) : CartItem).user_id = x.user_id ∧
            ((if x.id == item.id then ({ item with quantity := cu.quantity, updated_at := now } : CartItem) else x) : CartItem).dish_id = x.dish_id := by
          intro x hx
          by_cases hxid : x.id = item.id
          · have hxeq : x = item :=
              List.inj_on_of_nodup_map hwf.cart_ids_nodup hx hitmem hxid
            rw [if_pos (by simpa using hxid), hxeq]
            exact ⟨rfl, rfl, rfl⟩
          · rw [if_neg (by simpa using hxid)]
            exact ⟨rfl, rfl, rfl⟩
        refine ⟨hwf.stock_nonneg, hwf.dish_ids_nodup, hwf.dish_ids_pos,
          hwf.dish_ids_lt, hwf.next_dish_id_pos, ?_, ?_, ?_, ?_,
          hwf.order_ids_nodup, hwf.order_ids_lt, hwf.order_item_order_id_lt⟩
        · exact cart_unique_map_of_keys _ hwf.cart_unique
            (fun x hx => ⟨(hkey x hx).2.1, (hkey x hx).2.2⟩)
        · rw [map_key_of_pointwise CartItem.id _ (fun x hx => (hkey x hx).1)]
          exact hwf.cart_ids_nodup
        · intro ci hci
          rcases List.mem_map.mp hci with ⟨x, hx, rfl⟩
          rw [(hkey x hx).1]
          exact hwf.cart_ids_lt x hx
        · intro ci hci
          rcases List.mem_map.mp hci with ⟨x, hx, rfl⟩
          by_cases hxid : x.id = item.id
          · rw [if_pos (by simpa using hxid)]
            exact hv
          · rw [if_neg (by simpa using hxid)]
            exact hwf.cart_qty_pos x hx

/-- The (spec-modelled) cart remove preserves the invariants. -/
theorem wf_remove_from_cart {s : DBState} (hwf : WF s) (user_id : Nat)
    (cart_item_id : Nat) : WF (remove_from_cart s user_id cart_item_id).2 := by
  rw [remove_from_cart]
  split
  · exact hwf
  · exact wf_cart_filter hwf _

/-- `clear_cart` preserves the invariants. -/
theorem wf_clear_cart {s : DBState} (hwf : WF s) (user_id : Nat) :
    WF (clear_cart s user_id).2 := by
  rw [clear_cart]
  exact wf_cart_filter hwf _

/-- Appending an order under the fresh id keeps the order-table
invariants. -/
theorem order_fields_append {s : DBState} (hwf : WF s) (o : Order)
    (ho : o.id = s.next_order_id) :
    ((s.orders ++ [o]).map Order.id).Nodup ∧
    (∀ x ∈ s.orders ++ [o], x.id < s.next_order_id + 1) ∧
    (∀ oi ∈ s.order_items, oi.order_id < s.next_order_id + 1) := by
  refine ⟨?_, ?_, ?_⟩
  · rw [List.map_append]
    refine List.Nodup.append hwf.order_ids_nodup (List.nodup_singleton _) ?_
    intro a ha hb
    rw [List.map_singleton, List.mem_singleton, ho] at hb
    rcases List.mem_map.mp ha with ⟨x, hx, rfl⟩
    exact absurd (hb ▸ hwf.order_ids_lt x hx) (lt_irrefl _)
  · intro x hx
    rcases List.mem_append.mp hx with hx | hx
    · exact Nat.lt_succ_of_lt (hwf.order_ids_lt x hx)
    · rw [List.mem_singleton.mp hx, ho]
      exact Nat.lt_succ_self _
  · intro oi hoi
    exact Nat.lt_succ_of_lt (hwf.order_item_order_id_lt oi hoi)

/-- Every line recorded by a successful re-validation pass is within
the current stock of the (unique) dish row it references. -/
theorem buildOrderItems_bound {s : DBState} (hwf : WF s) {cart : List CartItem}
    {total : Int} {items : List OrderItemData}
    (hb : buildOrderItems s cart = some (total, items)) :
    ∀ it ∈ items, ∀ d ∈ s.dishes, d.id = it.dish_id →
      it.quantity ≤ d.stock_quantity := by
  intro it hit d hd hdid
  rcases forall₂_mem_right (buildOrderItems_forall₂ hb) it hit with
    ⟨ci, _, dish, hdish, _, hstock, hdishid, hqty, _⟩
  rcases get_dish_by_id_mem hdish with ⟨hdishmem, _⟩
  have hdeq : d = dish :=
    List.inj_on_of_nodup_map hwf.dish_ids_nodup hd hdishmem (hdid.trans hdishid)
  rw [hqty, hdeq]
  exact hstock

/-- A fault-interrupted order placement (only the first commit is
durable) preserves the invariants. -/
theorem wf_place_order_fault {s : DBState} (hwf : WF s) (now : Nat) (user_id : Nat)
    (od : OrderCreate) : WF (create_order_first_commit now s user_id od) := by
  rw [create_order_first_commit]
  by_cases hem : (s.cart_items.filter (fun ci => ci.user_id == user_id)).isEmpty
  · rw [create_order_run_eq_of_empty hem]
    exact hwf
  · have hem2 : (s.cart_items.filter (fun ci => ci.user_id == user_id)).isEmpty = false := by
      simpa using hem
    cases hb : buildOrderItems s (s.cart_items.filter (fun ci => ci.user_id == user_id)) with
    | none =>
      rw [create_order_run_eq_of_invalid hb]
      exact hwf
    | some p =>
      rcases p with ⟨total, items⟩
      rw [create_order_run_eq_of_success hem2 hb]
      rcases order_fields_append hwf
        (Order.mk s.next_order_id user_id now od.pickup_time od.delivery_type
          OrderStatus.pending total (od.remarks.getD "") now now) rfl with ⟨h1, h2, h3⟩
      exact ⟨hwf.stock_nonneg, hwf.dish_ids_nodup, hwf.dish_ids_pos, hwf.dish_ids_lt,
        hwf.next_dish_id_pos, hwf.cart_unique, hwf.cart_ids_nodup, hwf.cart_ids_lt,
        hwf.cart_qty_pos, h1, h2, h3⟩

/-- A completed order placement preserves the invariants; in
particular the stock decrement cannot drive any stock negative because
every line was just re-validated and a user's cart lines name pairwise
distinct dishes. -/
theorem wf_place_order {s : DBState} (hwf : WF s) (now : Nat) (user_id : Nat)
    (od : OrderCreate) : WF (create_order_from_cart now s user_id od).2 := by
  rw [create_order_from_cart]
  by_cases hem : (s.cart_items.filter (fun ci => ci.user_id == user_id)).isEmpty
  · rw [create_order_run_eq_of_empty hem]
    exact hwf
  · have hem2 : (s.cart_items.filter (fun ci => ci.user_id == user_id)).isEmpty = false := by
      simpa using hem
    cases hb : buildOrderItems s (s.cart_items.filter (fun ci => ci.user_id == user_id)) with
    | none =>
      rw [create_order_run_eq_of_invalid hb]
      exact hwf
    | some p =>
      rcases p with ⟨total, items⟩
      rw [create_order_run_eq_of_success hem2 hb]
      rcases order_fields_append hwf
        (Order.mk s.next_order_id user_id now od.pickup_time od.delivery_type
          OrderStatus.pending total (od.remarks.getD "") now now) rfl with ⟨h1, h2, h3⟩
      have hnd : (items.map OrderItemData.dish_id).Nodup := by
        rw [buildOrderItems_dish_ids hb]
        exact cart_unique_filter_dish_ids hwf.cart_unique user_id
      have hsub : List.Sublist (s.cart_items.filter (fun ci => ¬ ci.user_id == user_id))
          s.cart_items := List.filter_sublist _
      refine ⟨?_, ?_, ?_, ?_, hwf.next_dish_id_pos, ?_, ?_, ?_, ?_, h1, h2, ?_⟩
      · exact applyStockDecrements_nonneg hnd hwf.dish_ids_pos hwf.stock_nonneg
          (buildOrderItems_bound hwf hb)
      · rw [applyStockDecrements_ids]
        exact hwf.dish_ids_nodup
      · intro d2 hd2
        rcases applyStockDecrements_mem d2 hd2 with ⟨d, hd, rfl⟩
        rw [foldDish_id]
        exact hwf.dish_ids_pos d hd
      · intro d2 hd2
        rcases applyStockDecrements_mem d2 hd2 with ⟨d, hd, rfl⟩
        rw [foldDish_id]
        exact hwf.dish_ids_lt d hd
      · exact hwf.cart_unique.sublist hsub
      · exact hwf.cart_ids_nodup.sublist (hsub.map CartItem.id)
      · intro ci hci
        exact hwf.cart_ids_lt ci (List.mem_of_mem_filter hci)
      · intro ci hci
        exact hwf.cart_qty_pos ci (List.mem_of_mem_filter hci)
      · intro oi hoi
        rcases List.mem_append.mp hoi with hoi | hoi
        · exact h3 oi hoi
        · rw [mkOrderItems_order_id items s.next_order_item_id s.next_order_id oi hoi]
          exact Nat.lt_succ_self _

/-- The unconditional status overwrite preserves the invariants. -/
theorem wf_update_order_status {s : DBState} (hwf : WF s) (now : Nat) (order_id : Nat)
    (st : OrderStatus) : WF (update_order_status now s order_id st).2 := by
  rw [update_order_status]
  split
  · exact hwf
  · rename_i o hfind
    have hoid : o.id = order_id := by simpa using List.find?_some hfind
    have hkey : ∀ x ∈ s.orders,
        ((if x.id == order_id then ({ o with status := st, updated_at := now } : Order) else x) : Order).id = x.id := by
      intro x _
      by_cases hx : x.id = order_id
      · rw [if_pos (by simpa using hx)]
        exact hoid.trans hx.symm
      · rw [if_neg (by simpa using hx)]
    refine ⟨hwf.stock_nonneg, hwf.dish_ids_nodup, hwf.dish_ids_pos, hwf.dish_ids_lt,
      hwf.next_dish_id_pos, hwf.cart_unique, hwf.cart_ids_nodup, hwf.cart_ids_lt,
      hwf.cart_qty_pos, ?_, ?_, hwf.order_item_order_id_lt⟩
    · rw [map_key_of_pointwise Order.id _ hkey]
      exact hwf.order_ids_nodup
    · intro x2 hx2
      rcases List.mem_map.mp hx2 with ⟨x, hx, rfl⟩
      rw [hkey x hx]
      exact hwf.order_ids_lt x hx

/-- Every committed state reachable through the service layer is
structurally well-formed. -/
theorem reachable_wf {s : DBState} (h : Reachable hash_password s) : WF s := by
  induction h with
  | empty =>
    refine ⟨?_, ?_, ?_, ?_, ?_, ?_, ?_, ?_, ?_, ?_, ?_, ?_⟩ <;> first
      | exact Nat.le_refl 1
      | exact List.Pairwise.nil
      | (intro x hx; cases hx)
  | step op _ hv ih =>
    cases op with
    | opRegisterUser now ud => exact wf_register_user hash_password ih now ud
    | opCreateDepartment now dd => exact wf_create_department ih now dd
    | opUpdateDepartment now dept_id du => exact wf_update_department ih now dept_id du
    | opDeleteDepartment now dept_id => exact wf_delete_department ih now dept_id
    | opCreateDish now dc => exact wf_create_dish ih now hv
    | opUpdateDish now dish_id du => exact wf_update_dish ih now dish_id hv
    | opDeleteDish now dish_id => exact wf_delete_dish ih now dish_id
    | opAddToCart now user_id cd => exact wf_add_to_cart ih now user_id hv
    | opUpdateCartItem now user_id cart_item_id cu =>
        exact wf_update_cart_item ih now user_id cart_item_id hv
    | opRemoveFromCart user_id cart_item_id => exact wf_remove_from_cart ih user_id cart_item_id
    | opClearCart user_id => exact wf_clear_cart ih user_id
    | opPlaceOrder now user_id od => exact wf_place_order ih now user_id od
    | opPlaceOrderFault now user_id od => exact wf_place_order_fault ih now user_id od
    | opUpdateOrderStatus now order_id st => exact wf_update_order_status ih now order_id st

/-- Left-membership extraction from a linewise correspondence. -/
theorem forall₂_mem_left {α β : Type} {R : α → β → Prop} :
    ∀ {l1 : List α} {l2 : List β}, List.Forall₂ R l1 l2 →
      ∀ a ∈ l1, ∃ b ∈ l2, R a b := by
  intro l1 l2 h
  induction h with
  | nil => intro a ha; cases ha
  | @cons a b l1t l2t hR _ ih =>
    intro x hx
    rcases List.mem_cons.mp hx with rfl | hx
    · exact ⟨b, List.mem_cons_self b l2t, hR⟩
    · rcases ih x hx with ⟨b2, hb2, hr⟩
      exact ⟨b2, List.mem_cons_of_mem b hb2, hr⟩

/-- The re-validation pass succeeds when every line's dish resolves,
is available and has enough stock. -/
theorem buildOrderItems_isSome {s : DBState} :
    ∀ {cart : List CartItem},
      (∀ ci ∈ cart, ∃ dish, get_dish_by_id s ci.dish_id = some dish ∧
        dish.is_available = true ∧ ci.quantity ≤ dish.stock_quantity) →
      ∃ total items, buildOrderItems s cart = some (total, items) := by
  intro cart
  induction cart with
  | nil =>
    intro _
    exact ⟨0, [], rfl⟩
  | cons ci rest ih =>
    intro hvalid
    rcases hvalid ci (List.mem_cons_self ci rest) with ⟨dish, hdish, hav, hstock⟩
    rcases ih (fun x hx => hvalid x (List.mem_cons_of_mem ci hx)) with ⟨t, its, hrest⟩
    refine ⟨dish.price * ci.quantity + t,
      { dish_id := dish.id, quantity := ci.quantity, unit_price := dish.price,
        subtotal := dish.price * ci.quantity } :: its, ?_⟩
    rw [buildOrderItems, hdish]
    dsimp only
    rw [if_neg (by simpa using hav), if_neg (not_lt.mpr hstock), hrest]

/-- The scenario state is reachable through two valid requests. -/
theorem exampleState_reachable : Reachable id exampleState :=
  Reachable.step (Op.opAddToCart 1 7 { dish_id := 1, quantity := 3 })
    (Reachable.step (Op.opCreateDish 0 examplePizza) Reachable.empty
      (show (0 : Int) ≤ examplePizza.stock_quantity by decide))
    (show (1 : Int) ≤ (3 : Int) by decide)

/-- C1: the spec requires steps 3–6 of order placement (order row,
order items, stock decrements, cart clear) to be one atomic unit, but
`create_order_from_cart` issues two separate commits; in the committed
state left by a storage fault right after the first commit, the Order
row is durable with a non-zero total while no OrderItem row exists, no
stock was decremented and the cart was not cleared. -/
theorem C1_order_placement_not_atomic :
    ((create_order_first_commit 2 exampleState 7 exampleOrderData).orders.map
        (fun o => (o.user_id, o.total_amount)) = [(7, 4797)]) ∧
    (create_order_first_commit 2 exampleState 7 exampleOrderData).order_items = [] ∧
    ((create_order_first_commit 2 exampleState 7 exampleOrderData).dishes.map
        Dish.stock_quantity = [10]) ∧
    (create_order_first_commit 2 exampleState 7 exampleOrderData).cart_items =
      exampleState.cart_items ∧
    exampleState.cart_items ≠ [] := by
  decide

/-- C2: a failed `create_order_from_cart` (no order returned) leaves
the database exactly as it was: every dish's stock, the order and
order-item tables, and the user's cart rows are unchanged. -/
theorem C2_failed_placement_changes_nothing (now : Nat) (s : DBState) (user_id : Nat)
    (od : OrderCreate) (h : (create_order_from_cart now s user_id od).1 = none) :
    (create_order_from_cart now s user_id od).2 = s := by
  rw [create_order_from_cart] at h ⊢
  by_cases hem : (s.cart_items.filter (fun ci => ci.user_id == user_id)).isEmpty
  · rw [create_order_run_eq_of_empty hem]
  · have hem2 : (s.cart_items.filter (fun ci => ci.user_id == user_id)).isEmpty = false := by
      simpa using hem
    cases hb : buildOrderItems s (s.cart_items.filter (fun ci => ci.user_id == user_id)) with
    | none => rw [create_order_run_eq_of_invalid hb]
    | some p =>
      rcases p with ⟨total, items⟩
      rw [create_order_run_eq_of_success hem2 hb] at h
      simp at h

/-- C2 witness: placing an order on the empty database fails (empty
cart) and the state is untouched. -/
theorem C2_witness :
    (create_order_from_cart 0 DBState.empty 1 exampleOrderData).2 = DBState.empty :=
  C2_failed_placement_changes_nothing 0 DBState.empty 1 exampleOrderData (by decide)

/-- C5: in every state reachable through the service operations, every
dish's stock_quantity is non-negative. -/
theorem C5_stock_never_negative (hash_password : String → String) {s : DBState}
    (h : Reachable hash_password s) : ∀ d ∈ s.dishes, 0 ≤ d.stock_quantity :=
  (reachable_wf hash_password h).stock_nonneg

/-- C5 witness: the invariant evaluated on a concrete reachable state. -/
theorem C5_witness :
    (0 : Int) ≤ (Dish.mk 1 "Pizza" 1599 "Delicious pizza" none "Pizza" 10 true 0 0).stock_quantity :=
  C5_stock_never_negative id exampleState_reachable _ (by decide)

/-- C6: in every reachable state the cart holds at most one row per
(user, dish) pair, and a successful `add_to_cart` for a pair already
present bumps that very row's quantity by the requested (positive)
quantity in place, inserting nothing. -/
theorem C6_cart_unique_and_increments (hash_password : String → String) {s : DBState}
    (h : Reachable hash_password s) :
    CartUnique s.cart_items ∧
    (∀ (now user_id : Nat) (cd : CartItemCreate) (ci : CartItem), cd.Valid →
      ci ∈ s.cart_items → ci.user_id = user_id → ci.dish_id = cd.dish_id →
      ∀ ci2 s2, add_to_cart now s user_id cd = (some ci2, s2) →
        ci2.id = ci.id ∧ ci2.quantity = ci.quantity + cd.quantity ∧
        ci.quantity < ci2.quantity ∧
        s2.cart_items = s.cart_items.map (fun x => if x.id == ci.id then ci2 else x)) := by
  have hwf := reachable_wf hash_password h
  refine ⟨hwf.cart_unique, ?_⟩
  intro now user_id cd ci hv hci hciu hcid ci2 s2 heq
  have hfind := cart_find?_pair_eq_some hwf.cart_unique hci
  rw [hciu, hcid] at hfind
  rw [add_to_cart] at heq
  split at heq
  · simp at heq
  · rename_i dish hdish
    split at heq
    · simp at heq
    · split at heq
      · simp at heq
      · split at heq
        · rename_i existing hfind2
          rw [hfind] at hfind2
          injection hfind2 with hex
          subst hex
          dsimp only at heq
          split at heq
          · simp at heq
          · injection heq with h1 h2
            injection h1 with h1
            subst h1
            subst h2
            have hv2 : (1 : Int) ≤ cd.quantity := hv
            refine ⟨rfl, rfl, ?_, rfl⟩
            simp only []
            omega
        · rename_i hfind2
          rw [hfind] at hfind2
          exact Option.noConfusion hfind2

/-- C6 witness: uniqueness evaluated on a concrete reachable state. -/
theorem C6_witness : CartUnique exampleState.cart_items :=
  (C6_cart_unique_and_increments id exampleState_reachable).1

/-- C9: removing a cart row by id (spec-modelled
`CartService.remove_from_cart`) deletes exactly that row when present,
and calling it with an id that matches no row of the user is a
returned failure with the state unchanged, not a crash. -/
theorem C9_remove_from_cart_by_id (s : DBState) (user_id : Nat) (cart_item_id : Nat) :
    ((∀ ci ∈ s.cart_items, ¬ (ci.id = cart_item_id ∧ ci.user_id = user_id)) →
      remove_from_cart s user_id cart_item_id = (false, s)) ∧
    ((∃ ci ∈ s.cart_items, ci.id = cart_item_id ∧ ci.user_id = user_id) →
      (remove_from_cart s user_id cart_item_id).1 = true ∧
      (∀ ci ∈ (remove_from_cart s user_id cart_item_id).2.cart_items,
        ¬ (ci.id = cart_item_id ∧ ci.user_id = user_id)) ∧
      (∀ ci ∈ s.cart_items, ¬ (ci.id = cart_item_id ∧ ci.user_id = user_id) →
        ci ∈ (remove_from_cart s user_id cart_item_id).2.cart_items) ∧
      (remove_from_cart s user_id cart_item_id).2.dishes = s.dishes ∧
      (remove_from_cart s user_id cart_item_id).2.orders = s.orders) := by
  constructor
  · intro habs
    have hnone : s.cart_items.find?
        (fun ci => ci.id == cart_item_id && ci.user_id == user_id) = none := by
      rw [List.find?_eq_none]
      intro x hx
      have := habs x hx
      simp only [Bool.and_eq_true, beq_iff_eq]
      tauto
    rw [remove_from_cart, hnone]
  · rintro ⟨ci, hci, hid, huser⟩
    have hsome : (s.cart_items.find?
        (fun ci => ci.id == cart_item_id && ci.user_id == user_id)).isSome := by
      rw [List.find?_isSome]
      exact ⟨ci, hci, by simp [hid, huser]⟩
    rw [remove_from_cart]
    cases hfind : s.cart_items.find?
        (fun ci => ci.id == cart_item_id && ci.user_id == user_id) with
    | none => rw [hfind] at hsome; simp at hsome
    | some y =>
      refine ⟨rfl, ?_, ?_, rfl, rfl⟩
      · intro x hx
        have := (List.mem_filter.mp hx).2
        simp only [Bool.and_eq_true, beq_iff_eq, decide_eq_true_eq] at this
        tauto
      · intro x hx hnx
        refine List.mem_filter.mpr ⟨hx, ?_⟩
        simp only [Bool.and_eq_true, beq_iff_eq, decide_eq_true_eq]
        tauto

/-- C9 witness: removing an id that is not in the cart fails and
changes nothing on a concrete state. -/
theorem C9_witness : remove_from_cart exampleState 7 99 = (false, exampleState) :=
  (C9_remove_from_cart_by_id exampleState 7 99).1 (by decide)

/-- C10: `clear_cart` always returns `true` (also on an already-empty
cart), afterwards the user has no cart rows, rows of other users are
exactly preserved, and running it twice equals running it once. -/
theorem C10_clear_cart_idempotent (s : DBState) (user_id : Nat) :
    (clear_cart s user_id).1 = true ∧
    (clear_cart s user_id).2 =
      { s with cart_items := (s.cart_items.filter (fun ci => ¬ ci.user_id == user_id)) } ∧
    (∀ ci ∈ (clear_cart s user_id).2.cart_items, ci.user_id ≠ user_id) ∧
    clear_cart (clear_cart s user_id).2 user_id = clear_cart s user_id := by
  refine ⟨rfl, rfl, ?_, ?_⟩
  · intro ci hci
    have := (List.mem_filter.mp hci).2
    simpa using this
  · have hrep : (s.cart_items.filter (fun ci => ¬ ci.user_id == user_id)).filter
        (fun ci => ¬ ci.user_id == user_id) =
        s.cart_items.filter (fun ci => ¬ ci.user_id == user_id) :=
      List.filter_eq_self.mpr (fun a ha => (List.mem_filter.mp ha).2)
    rw [clear_cart, clear_cart]
    rw [show ({ s with cart_items := (s.cart_items.filter (fun ci => ¬ ci.user_id == user_id)) } : DBState).cart_items = s.cart_items.filter (fun ci => ¬ ci.user_id == user_id) from rfl, hrep]

/-- `find?` skips a prefix in which nothing matches. -/
theorem find?_append_none {α : Type} {p : α → Bool} :
    ∀ {l1 : List α} (l2 : List α), l1.find? p = none →
      (l1 ++ l2).find? p = l2.find? p := by
  intro l1
  induction l1 with
  | nil => intro l2 _; rfl
  | cons a t ih =>
    intro l2 h
    rw [List.find?_eq_none] at h
    rw [List.cons_append, List.find?_cons_of_neg]
    · exact ih l2 (List.find?_eq_none.mpr (fun x hx => h x (List.mem_cons_of_mem a hx)))
    · exact h a (List.mem_cons_self a t)

/-- C7: in a reachable state, `add_to_cart` fails exactly when the dish
does not resolve, is not available, or the resulting quantity (existing
row quantity + requested, or requested alone) would exceed the current
stock; on success it either appends a fresh row or bumps the existing
row for the (user, dish) pair. -/
theorem C7_add_to_cart_failure_iff (hash_password : String → String) {s : DBState}
    (h : Reachable hash_password s) (now : Nat) (user_id : Nat) (cd : CartItemCreate)
    (hv : cd.Valid) :
    ((add_to_cart now s user_id cd).1 = none ↔
      (get_dish_by_id s cd.dish_id = none ∨
        ∃ dish, get_dish_by_id s cd.dish_id = some dish ∧
          (dish.is_available = false ∨
            dish.stock_quantity <
              ((s.cart_items.find? (fun ci => ci.user_id == user_id && ci.dish_id == cd.dish_id)).elim
                cd.quantity (fun e => e.quantity + cd.quantity))))) ∧
    (∀ ci2 s2, add_to_cart now s user_id cd = (some ci2, s2) →
      ((s2.cart_items = s.cart_items ++ [ci2] ∧ ci2.quantity = cd.quantity ∧
        ci2.user_id = user_id ∧ ci2.dish_id = cd.dish_id) ∨
      (∃ e ∈ s.cart_items, e.user_id = user_id ∧ e.dish_id = cd.dish_id ∧
        ci2.id = e.id ∧ ci2.quantity = e.quantity + cd.quantity ∧
        s2.cart_items = s.cart_items.map (fun x => if x.id == e.id then ci2 else x)))) := by
  have hwf := reachable_wf hash_password h
  have hv2 : (1 : Int) ≤ cd.quantity := hv
  rw [add_to_cart]
  cases hdish : get_dish_by_id s cd.dish_id with
  | none =>
    refine ⟨⟨fun _ => Or.inl rfl, fun _ => rfl⟩, ?_⟩
    intro ci2 s2 heq
    simp at heq
  | some dish =>
    dsimp only
    by_cases hav : dish.is_available = true
    · rw [if_neg (fun hc => hc hav)]
      cases hfind : s.cart_items.find?
          (fun ci => ci.user_id == user_id && ci.dish_id == cd.dish_id) with
      | none =>
        dsimp only [Option.elim]
        by_cases h1 : dish.stock_quantity < cd.quantity
        · rw [if_pos h1]
          refine ⟨⟨fun _ => Or.inr ⟨dish, rfl, Or.inr h1⟩, fun _ => rfl⟩, ?_⟩
          intro ci2 s2 heq
          simp at heq
        · rw [if_neg h1]
          dsimp only
          constructor
          · constructor
            · intro hl
              simp at hl
            · intro hr
              rcases hr with hr | ⟨dish2, hd2, hbad⟩
              · exact Option.noConfusion hr
              · injection hd2 with hd2
                subst hd2
                rcases hbad with hbad | hbad
                · rw [hav] at hbad
                  exact Bool.noConfusion hbad
                · exact absurd hbad h1
          · intro ci2 s2 heq
            injection heq with hh1 hh2
            injection hh1 with hh1
            subst hh1
            subst hh2
            exact Or.inl ⟨rfl, rfl, rfl, rfl⟩
      | some e =>
        have hemem : e ∈ s.cart_items := List.mem_of_find?_eq_some hfind
        have hekeys : e.user_id = user_id ∧ e.dish_id = cd.dish_id := by
          have h3 := List.find?_some hfind
          simp only [Bool.and_eq_true, beq_iff_eq] at h3
          exact h3
        have heq1 : (1 : Int) ≤ e.quantity := hwf.cart_qty_pos e hemem
        dsimp only [Option.elim]
        by_cases h1 : dish.stock_quantity < cd.quantity
        · rw [if_pos h1]
          refine ⟨⟨fun _ => Or.inr ⟨dish, rfl, Or.inr (by omega)⟩, fun _ => rfl⟩, ?_⟩
          intro ci2 s2 heq
          simp at heq
        · rw [if_neg h1]
          by_cases h2 : dish.stock_quantity < e.quantity + cd.quantity
          · rw [if_pos h2]
            refine ⟨⟨fun _ => Or.inr ⟨dish, rfl, Or.inr h2⟩, fun _ => rfl⟩, ?_⟩
            intro ci2 s2 heq
            simp at heq
          · rw [if_neg h2]
            constructor
            · constructor
              · intro hl
                simp at hl
              · intro hr
                rcases hr with hr | ⟨dish2, hd2, hbad⟩
                · exact Option.noConfusion hr
                · injection hd2 with hd2
                  subst hd2
                  rcases hbad with hbad | hbad
                  · rw [hav] at hbad
                    exact Bool.noConfusion hbad
                  · exact absurd hbad h2
            · intro ci2 s2 heq
              injection heq with hh1 hh2
              injection hh1 with hh1
              subst hh1
              subst hh2
              exact Or.inr ⟨e, hemem, hekeys.1, hekeys.2, rfl, rfl, rfl⟩
    · rw [if_pos hav]
      have havf : dish.is_available = false := by
        revert hav
        cases dish.is_available <;> simp
      refine ⟨⟨fun _ => Or.inr ⟨dish, rfl, Or.inl havf⟩, fun _ => rfl⟩, ?_⟩
      intro ci2 s2 heq
      simp at heq

/-- C7 witness: on the scenario state, asking for 20 of the dish (cart
already holds 3, stock 10) fails. -/
theorem C7_witness :
    (add_to_cart 5 exampleState 7 { dish_id := 1, quantity := 20 }).1 = none :=
  ((C7_add_to_cart_failure_iff id exampleState_reachable 5 7
      { dish_id := 1, quantity := 20 } (show (1 : Int) ≤ 20 by decide)).1).mpr
    (Or.inr ⟨Dish.mk 1 "Pizza" 1599 "Delicious pizza" none "Pizza" 10 true 0 0,
      by decide, Or.inr (by decide)⟩)

/-- C8: registration stores exactly the one-way hash of the password,
and on the stored state authentication succeeds with the registered
email/password pair, fails for any password whose hash differs, and
fails for any email that belongs to no account. -/
theorem C8_register_authenticate (hash_password : String → String) (now : Nat)
    (s : DBState) (ud : UserCreate) (u : User) (s2 : DBState)
    (hreg : register_user hash_password now s ud = (some u, s2)) :
    u.password_hash = hash_password ud.password ∧
    authenticate_user hash_password s2 { email := ud.email, password := ud.password } = some u ∧
    (∀ p, hash_password p ≠ hash_password ud.password →
      authenticate_user hash_password s2 { email := ud.email, password := p } = none) ∧
    (∀ e p, (∀ v ∈ s2.users, v.email ≠ e) →
      authenticate_user hash_password s2 { email := e, password := p } = none) := by
  rw [register_user] at hreg
  split at hreg
  · simp at hreg
  · rename_i hbase
    injection hreg with h1 h2
    injection h1 with h1
    subst h1
    subst h2
    refine ⟨rfl, ?_, ?_, ?_⟩
    · rw [authenticate_user]
      dsimp only
      rw [find?_append_none _ hbase]
      rw [List.find?_cons_of_pos]
      · dsimp only
        rw [if_pos]
        simp
      · simp
    · intro p hp
      rw [authenticate_user]
      dsimp only
      rw [find?_append_none _ hbase]
      rw [List.find?_cons_of_pos]
      · dsimp only
        rw [if_neg]
        simpa using fun hc => hp hc.symm
      · simp
    · intro e p hno
      rw [authenticate_user]
      dsimp only
      rw [List.find?_eq_none.mpr]
      intro v hv
      simpa using hno v hv

/-- C8 witness: the round trip evaluated concretely under the identity
hash. -/
theorem C8_witness :
    authenticate_user id (register_user id 0 DBState.empty exampleUserCreate).2
      { email := "u@example.com", password := "password123" } = some exampleUser :=
  (C8_register_authenticate id 0 DBState.empty exampleUserCreate exampleUser
    (register_user id 0 DBState.empty exampleUserCreate).2 (by decide)).2.1

/-- Filtering the post-placement order-item table by the new order's id
yields exactly the freshly created rows: pre-existing rows reference
strictly older orders. -/
theorem order_items_filter_new {s : DBState} (hwf : WF s) (items : List OrderItemData) :
    (s.order_items ++ mkOrderItems s.next_order_item_id s.next_order_id items).filter
        (fun oi => oi.order_id == s.next_order_id) =
      mkOrderItems s.next_order_item_id s.next_order_id items := by
  rw [List.filter_append]
  have hold : s.order_items.filter (fun oi => oi.order_id == s.next_order_id) = [] := by
    rw [List.filter_eq_nil_iff]
    intro oi hoi
    have := hwf.order_item_order_id_lt oi hoi
    simp only [beq_iff_eq]
    omega
  have hnew : (mkOrderItems s.next_order_item_id s.next_order_id items).filter
      (fun oi => oi.order_id == s.next_order_id) =
      mkOrderItems s.next_order_item_id s.next_order_id items := by
    rw [List.filter_eq_self]
    intro oi hoi
    simp only [beq_iff_eq]
    exact mkOrderItems_order_id items _ _ oi hoi
  rw [hold, hnew, List.nil_append]

/-- C4: for every order created by `create_order_from_cart`, the sum of
its OrderItems' subtotals equals the order's total_amount exactly, and
each subtotal equals unit_price × quantity — all in exact 2-decimal
fixed-point arithmetic (embedded as cents in `Int`). -/
theorem C4_order_total_is_sum_of_subtotals (hash_password : String → String)
    {s : DBState} (h : Reachable hash_password s) (now : Nat) (user_id : Nat)
    (od : OrderCreate) (o : Order) (s2 : DBState)
    (heq : create_order_from_cart now s user_id od = (some o, s2)) :
    ((s2.order_items.filter (fun oi => oi.order_id == o.id)).map OrderItem.subtotal).sum
      = o.total_amount ∧
    (∀ oi ∈ s2.order_items.filter (fun oi => oi.order_id == o.id),
      oi.subtotal = oi.unit_price * oi.quantity) := by
  have hwf := reachable_wf hash_password h
  rw [create_order_from_cart] at heq
  by_cases hem : (s.cart_items.filter (fun ci => ci.user_id == user_id)).isEmpty
  · rw [create_order_run_eq_of_empty hem] at heq
    simp at heq
  · have hem2 : (s.cart_items.filter (fun ci => ci.user_id == user_id)).isEmpty = false := by
      simpa using hem
    cases hb : buildOrderItems s (s.cart_items.filter (fun ci => ci.user_id == user_id)) with
    | none =>
      rw [create_order_run_eq_of_invalid hb] at heq
      simp at heq
    | some p =>
      rcases p with ⟨total, items⟩
      rw [create_order_run_eq_of_success hem2 hb] at heq
      dsimp only at heq
      injection heq with h1 h2
      injection h1 with h1
      subst h1
      subst h2
      dsimp only
      constructor
      · rw [order_items_filter_new hwf items, mkOrderItems_subtotals,
          buildOrderItems_total hb]
      · intro oi hoi
        rw [order_items_filter_new hwf items] at hoi
        rcases forall₂_mem_right
            (mkOrderItems_forall₂ items s.next_order_item_id s.next_order_id) oi hoi with
          ⟨it, hit, _, _, hq, hup, hsub⟩
        rcases forall₂_mem_right (buildOrderItems_forall₂ hb) it hit with
          ⟨ci, _, dish, _, _, _, _, hq2, hup2, hsub2⟩
        rw [hsub, hup, hq, hsub2, hup2, hq2]

/-- C4 witness: 3 × 15.99 gives subtotal 47.97 and the order total is
exactly that sum. -/
theorem C4_witness :
    ((exampleFinalState.order_items.filter
        (fun oi => oi.order_id == exampleOrder.id)).map OrderItem.subtotal).sum
      = exampleOrder.total_amount :=
  (C4_order_total_is_sum_of_subtotals id exampleState_reachable 2 7 exampleOrderData
    exampleOrder exampleFinalState (by decide)).1

/-- C3: on a well-formed state where the user's cart is non-empty and
every line's dish exists, is available and covers the quantity,
`create_order_from_cart` succeeds; the order is pending, the user's
cart ends empty, each consumed dish's stock drops by exactly the
purchased quantity, and the order carries one OrderItem per cart line
with unit_price snapshotting the dish's current price and subtotal =
unit_price × quantity. -/
theorem C3_successful_placement_effects {s : DBState} (hwf : WF s) (now : Nat)
    (user_id : Nat) (od : OrderCreate)
    (hne : get_cart_items s user_id ≠ [])
    (hvalid : ∀ ci ∈ get_cart_items s user_id, ∃ dish,
      get_dish_by_id s ci.dish_id = some dish ∧ dish.is_available = true ∧
      ci.quantity ≤ dish.stock_quantity) :
    ∃ o s2, create_order_from_cart now s user_id od = (some o, s2) ∧
      o.status = OrderStatus.pending ∧
      get_cart_items s2 user_id = [] ∧
      (∀ ci ∈ get_cart_items s user_id, ∀ d ∈ s.dishes, d.id = ci.dish_id →
        ∀ d2 ∈ s2.dishes, d2.id = ci.dish_id →
          d2.stock_quantity = d.stock_quantity - ci.quantity) ∧
      List.Forall₂ (fun (ci : CartItem) (oi : OrderItem) =>
          oi.order_id = o.id ∧ oi.dish_id = ci.dish_id ∧ oi.quantity = ci.quantity ∧
          (∀ d ∈ s.dishes, d.id = ci.dish_id → oi.unit_price = d.price) ∧
          oi.subtotal = oi.unit_price * oi.quantity)
        (get_cart_items s user_id)
        (s2.order_items.filter (fun oi => oi.order_id == o.id)) := by
  rw [get_cart_items] at hne hvalid
  have hem2 : (s.cart_items.filter (fun ci => ci.user_id == user_id)).isEmpty = false := by
    cases hl : s.cart_items.filter (fun ci => ci.user_id == user_id) with
    | nil => exact absurd hl hne
    | cons a t => rfl
  obtain ⟨total, items, hb⟩ := buildOrderItems_isSome hvalid
  have hnd : (items.map OrderItemData.dish_id).Nodup := by
    rw [buildOrderItems_dish_ids hb]
    exact cart_unique_filter_dish_ids hwf.cart_unique user_id
  rw [create_order_from_cart, create_order_run_eq_of_success hem2 hb]
  dsimp only
  refine ⟨_, _, rfl, rfl, ?_, ?_, ?_⟩
  · rw [get_cart_items]
    dsimp only
    rw [List.filter_eq_nil_iff]
    intro a ha
    have h2 := (List.mem_filter.mp ha).2
    simpa using h2
  · intro ci hci d hd hdid d2 hd2 hd2id
    rw [get_cart_items] at hci
    dsimp only at hd2
    rcases applyStockDecrements_mem d2 hd2 with ⟨d3, hd3, rfl⟩
    have hid3 : d3.id = ci.dish_id := by
      rw [← foldDish_id now items d3]
      exact hd2id
    have hdd : d3 = d :=
      List.inj_on_of_nodup_map hwf.dish_ids_nodup hd3 hd (hid3.trans hdid.symm)
    subst hdd
    rcases forall₂_mem_left (buildOrderItems_forall₂ hb) ci hci with
      ⟨it, hit, dish, hdish, _, _, hitdid, hitq, _⟩
    rcases get_dish_by_id_mem hdish with ⟨_, hdishid⟩
    have hitid2 : it.dish_id = ci.dish_id := hitdid.trans hdishid
    have hne0 : it.dish_id ≠ 0 := by
      rw [hitid2, ← hid3]
      exact hwf.dish_ids_pos d3 hd3
    rw [foldDish_match now items d3 it hnd hit hne0 (hid3.trans hitid2.symm)]
    dsimp only
    rw [hitq]
  · rw [get_cart_items]
    dsimp only
    rw [order_items_filter_new hwf items]
    refine (forall₂_trans (buildOrderItems_forall₂ hb)
      (mkOrderItems_forall₂ items s.next_order_item_id s.next_order_id)).imp ?_
    intro ci oi hr
    obtain ⟨it, ⟨dish, hdish, _, _, hdid, hq, hup, hsub⟩, hoid, hdid2, hq2, hup2, hsub2⟩ := hr
    rcases get_dish_by_id_mem hdish with ⟨hdishmem, hdishid⟩
    refine ⟨hoid, ?_, hq2.trans hq, ?_, ?_⟩
    · rw [hdid2, hdid, hdishid]
    · intro d hd hdd
      have hde : d = dish :=
        List.inj_on_of_nodup_map hwf.dish_ids_nodup hd hdishmem (hdd.trans hdishid.symm)
      rw [hde, hup2, hup]
    · rw [hsub2, hsub, hup2, hup, hq2, hq]

/-- C3 witness: the scenario checkout succeeds. -/
theorem C3_witness :
    ((create_order_from_cart 2 exampleState 7 exampleOrderData).1).isSome = true := by
  have hv : ∀ ci ∈ get_cart_items exampleState 7, ∃ dish,
      get_dish_by_id exampleState ci.dish_id = some dish ∧ dish.is_available = true ∧
      ci.quantity ≤ dish.stock_quantity := by
    intro ci hci
    have hcart : get_cart_items exampleState 7 = [CartItem.mk 1 7 1 3 1 1] := by decide
    rw [hcart, List.mem_singleton] at hci
    subst hci
    exact ⟨Dish.mk 1 "Pizza" 1599 "Delicious pizza" none "Pizza" 10 true 0 0,
      by decide, by decide, by decide⟩
  rcases C3_successful_placement_effects (reachable_wf id exampleState_reachable) 2 7
      exampleOrderData (by decide) hv with ⟨o, s2, heq, _⟩
  rw [heq]
  rfl

end Services

end MealOrdering
